import Mathlib

/-!
Verification of the action-sequence interpreter and window runtime of the
AI-workstation frontend (src/index.tsx) and of the file routes of its backend
(src/workstation-server/src/server.ts).

The embedding below translates the mutable runtime of the frontend — cursor
position, open windows, active window, clipboard, file store, chat transcript —
into an explicit state record `DState`, and each interpreter action into a
state-passing function.  A JavaScript exception escaping an action's `switch`
case is modelled as a `some`-valued second component of the step result
(`DState × Option String`); the interpreter loop has no per-action handler, so
such an exception aborts the remaining actions, exactly as in the source.

Modelling boundaries (each noted again at the definition it concerns):
- DOM hit-testing is restricted to the five desktop icons and the app windows;
  window-chrome buttons (maximize, close, save) are not reachable via the
  modelled `click` action.
- Animation timing, toasts and purely visual re-renders (spinners, the file
  explorer listing) have no state effect and are dropped.
- `Math.random()` window placement and CSS-determined default sizes are
  abstracted: placement coordinates come from an explicit `randPos` stream and
  sizes are fixed constants.
- The generative-image service is an oracle stream `genResults` consumed one
  result per generation call.
-/

namespace Workstation

/-- The five application kinds (`data-app` attribute in the source). -/
inductive AppKind where
  | docs
  | doodle
  | studio
  | browser
  | explorer
deriving DecidableEq, Repr

/-- The string form of an app kind, as used in window ids and map keys. -/
def appStr : AppKind → String
  | .docs => "docs"
  | .doodle => "doodle"
  | .studio => "studio"
  | .browser => "browser"
  | .explorer => "explorer"

/-- Singleton apps are keyed in `openWindows` by their app name; the document
editor is multi-instance. -/
def isSingleton : AppKind → Bool
  | .docs => false
  | _ => true

/-- A stored file: `{ content, modified }` as in `userDatabase.files`. -/
structure FileData where
  content : String
  modified : Nat
deriving DecidableEq, Repr

/-- A JS object used as a string-keyed map (`files.documents`, `files.images`):
an association list in insertion order with unique keys. -/
abbrev FileMap := List (String × FileData)

/-- Key lookup (`files[type][name]`). -/
def fmLookup (m : FileMap) (k : String) : Option FileData :=
  match m with
  | [] => none
  | (k2, v) :: rest => if k2 = k then some v else fmLookup rest k

/-- Key presence test. -/
def fmContains (m : FileMap) (k : String) : Bool :=
  (fmLookup m k).isSome

/-- JS assignment `obj[k] = v`: replaces in place if the key exists, otherwise
appends in insertion order. -/
def fmSet (m : FileMap) (k : String) (v : FileData) : FileMap :=
  if fmContains m k then
    m.map (fun p => if p.1 = k then (k, v) else p)
  else m ++ [(k, v)]

/-- JS `delete obj[k]`. -/
def fmErase (m : FileMap) (k : String) : FileMap :=
  m.filter (fun p => p.1 != k)

/-- The two independent file namespaces. -/
structure FilesDB where
  documents : FileMap
  images : FileMap
deriving DecidableEq, Repr

/-- A clipboard entry `{ type, data }`. -/
structure ClipItem where
  ctype : String
  data : String
deriving DecidableEq, Repr

/-- One outcome of a call to the image-generation service: a base64 payload,
a null payload (`generatedImages` empty), or a thrown error. -/
inductive GenResult where
  | ok (data : String)
  | nullRes
  | err
deriving DecidableEq, Repr

/-- An app window: DOM element identity (`id`/`idStr`), geometry as inline
styles, the body content (docs innerHTML; for the doodle pad an abstraction of
the canvas state whose `toDataURL` is the string itself), the studio image
`src`, an optionally focused text input's value, and the `openFiles` binding. -/
structure Window where
  id : Nat
  idStr : String
  app : AppKind
  title : String
  left : Int
  top : Int
  width : Int
  height : Int
  maximized : Bool
  content : String
  imgSrc : Option String
  inputFocusedValue : Option String
  fileInfo : Option (AppKind × String)
  z : Nat
deriving DecidableEq, Repr

/-- A desktop icon's bounding rectangle. -/
structure IconRect where
  app : AppKind
  left : Int
  top : Int
  width : Int
  height : Int
deriving DecidableEq, Repr

/-- The frontend runtime state for a logged-in user: module-level mutable
variables of src/index.tsx plus the local `userDatabase` file store, the
desktop geometry, and the two oracle streams for random placement and image
generation. `windows` holds every window element appended to the desktop and
not yet closed; `openWinKeys` is the `openWindows` Map (key to window id, in
insertion order). -/
structure DState where
  desktopW : Int
  desktopH : Int
  cursorX : Int
  cursorY : Int
  windows : List Window
  openWinKeys : List (String × Nat)
  activeWindow : Option Nat
  clipboard : Option ClipItem
  files : FilesDB
  chat : List String
  nextId : Nat
  zCounter : Nat
  now : Nat
  icons : List IconRect
  randPos : List (Int × Int)
  genResults : List GenResult
deriving DecidableEq, Repr

/-- `addMessage('assistant', text)`: append to the chat transcript. -/
def addMessage (s : DState) (text : String) : DState :=
  { s with chat := s.chat ++ [text] }

/-- Resolve a window element by its id. -/
def findWin (s : DState) (wid : Nat) : Option Window :=
  s.windows.find? (fun w => w.id == wid)

/-- Mutate the window element with the given id in place. -/
def updateWin (s : DState) (wid : Nat) (f : Window → Window) : DState :=
  { s with windows := s.windows.map (fun w => if w.id == wid then f w else w) }

/-- `openWindows.get(key)`. -/
def keyLookup (s : DState) (k : String) : Option Nat :=
  (s.openWinKeys.find? (fun p => p.1 == k)).map (fun p => p.2)

/-- `openWindows.set(key, win)`: replace in place or append. -/
def keySet (s : DState) (k : String) (wid : Nat) : DState :=
  if (s.openWinKeys.find? (fun p => p.1 == k)).isSome then
    { s with openWinKeys := s.openWinKeys.map (fun p => if p.1 == k then (k, wid) else p) }
  else { s with openWinKeys := s.openWinKeys ++ [(k, wid)] }

/-- `setActiveWindow`: no-op if already active, otherwise record the window as
active and raise it to the top of the z-order. -/
def setActiveWindow (s : DState) (wid : Nat) : DState :=
  if s.activeWindow = some wid then s
  else
    let s2 := updateWin { s with activeWindow := some wid } wid
      (fun w => { w with z := s.zCounter })
    { s2 with zCounter := s.zCounter + 1 }

/-- Default window width: the CSS-determined `offsetWidth`, abstracted. -/
def defaultWinWidth : Int := 500

/-- Default window height: the CSS-determined `offsetHeight`, abstracted. -/
def defaultWinHeight : Int := 400

/-- CSS-determined height of a window's header bar, abstracted. -/
def headerHeight : Int := 36

/-- Consume one coordinate pair from the random-placement oracle
(`Math.random() * (max - 50) + 50` in the source). -/
def popRand (s : DState) : (Int × Int) × DState :=
  match s.randPos with
  | [] => ((50, 50), s)
  | p :: rest => (p, { s with randPos := rest })

/-- `createAppWindow`: build the element (zIndex from the counter), append it
to the desktop, activate it (which raises the z-order again), and place it at
the oracle-supplied random position. -/
def createAppWindow (s : DState) (title content : String) (app : AppKind) :
    DState × Nat :=
  let id := s.nextId
  let z0 := s.zCounter
  let (pos, s1) := popRand s
  let w : Window :=
    { id := id
      idStr := "window-" ++ appStr app ++ "-" ++ toString id
      app := app
      title := title
      left := pos.1
      top := pos.2
      width := defaultWinWidth
      height := defaultWinHeight
      maximized := false
      content := content
      imgSrc := none
      inputFocusedValue := none
      fileInfo := none
      z := z0 }
  let s2 := { s1 with
    windows := s1.windows ++ [w]
    nextId := id + 1
    zCounter := z0 + 1 }
  (setActiveWindow s2 id, id)

/-- The icon element for an app kind, if laid out on this desktop. -/
def iconRectOf (s : DState) (k : AppKind) : Option IconRect :=
  s.icons.find? (fun i => i.app == k)

/-- Containment in an icon's bounding rectangle. -/
def inIconRect (i : IconRect) (px py : Int) : Bool :=
  decide (i.left ≤ px ∧ px ≤ i.left + i.width ∧ i.top ≤ py ∧ py ≤ i.top + i.height)

/-- Containment in a window's bounding rectangle (a maximized window covers
the whole desktop). -/
def inWinRect (s : DState) (w : Window) (px py : Int) : Bool :=
  if w.maximized then
    decide (0 ≤ px ∧ px ≤ s.desktopW ∧ 0 ≤ py ∧ py ≤ s.desktopH)
  else
    decide (w.left ≤ px ∧ px ≤ w.left + w.width ∧ w.top ≤ py ∧ py ≤ w.top + w.height)

/-- `document.elementFromPoint` restricted to app windows: windows stack above
the desktop icons, and among windows the highest z-index wins. -/
def windowAtPoint (s : DState) (px py : Int) : Option Window :=
  (s.windows.filter (fun w => inWinRect s w px py)).foldl
    (fun acc w =>
      match acc with
      | none => some w
      | some b => if b.z < w.z then some w else some b) none

/-- `document.elementFromPoint` hit on an icon (only reachable where no window
covers the point). -/
def iconAtPoint (s : DState) (px py : Int) : Option AppKind :=
  ((s.icons.find? (fun i => inIconRect i px py)).map (fun i => i.app))

/-- The icon selector strings of the desktop. -/
def iconSelector : AppKind → String
  | .docs => "#icon-docs"
  | .browser => "#icon-browser"
  | .doodle => "#icon-doodle"
  | .studio => "#icon-studio"
  | .explorer => "#icon-explorer"

/-- Scan `openFiles` for a document window bound to the given filename. -/
def findBoundDocsWindow (s : DState) (name : String) : Option Window :=
  s.windows.find? (fun w => w.fileInfo == some (AppKind.docs, name))

/-- The window-creating tail of `openDocumentWriter` (reached when no open
window is already bound to the file). -/
def openDocumentWriterCreate (s : DState) (file : Option (String × String)) :
    DState × Nat :=
  let title := match file with
    | some (name, _) => "📝 " ++ name
    | none => "📝 New Document"
  let content := match file with
    | some (_, c) => c
    | none => ""
  let (s1, wid) := createAppWindow s title content .docs
  let s2 := keySet s1 ("docs-" ++ toString wid) wid
  match file with
  | some (name, _) =>
    (updateWin s2 wid (fun w => { w with fileInfo := some (.docs, name) }), wid)
  | none => (s2, wid)

/-- `openDocumentWriter`: focus an open window already bound to the file, or
create a new document window (multi-instance: no singleton check). -/
def openDocumentWriter (s : DState) (file : Option (String × String)) :
    DState × Nat :=
  match file with
  | some (name, content) =>
    match findBoundDocsWindow s name with
    | some w => (setActiveWindow s w.id, w.id)
    | none => openDocumentWriterCreate s (some (name, content))
  | none => openDocumentWriterCreate s none

/-- `openBrowser`: focus the existing browser window if the `browser` key is
present, otherwise create one and register it under the key. -/
def openBrowser (s : DState) : DState × Nat :=
  match keyLookup s "browser" with
  | some wid => (setActiveWindow s wid, wid)
  | none =>
    let (s1, wid) := createAppWindow s "🌐 Web Browser" "" .browser
    (keySet s1 "browser" wid, wid)

/-- The window-creating tail of `openDoodlePad`.  Note: unlike the browser,
studio and explorer, there is no check for an already-open doodle window —
`openWindows.set('doodle', ...)` replaces the registry entry while the
previous doodle window element stays on the desktop. -/
def openDoodlePadCreate (s : DState) (file : Option (String × String)) :
    DState × Nat :=
  let title := match file with
    | some (name, _) => "🎨 " ++ name
    | none => "🎨 Doodle Pad"
  let (s1, wid) := createAppWindow s title "" .doodle
  let s2 := keySet s1 "doodle" wid
  match file with
  | some (name, c) =>
    if c != "" then
      (updateWin s2 wid
        (fun w => { w with content := c, fileInfo := some (.doodle, name) }), wid)
    else (s2, wid)
  | none => (s2, wid)

/-- `openDoodlePad`: focus an open window bound to the same doodle file, else
always create a fresh doodle window. -/
def openDoodlePad (s : DState) (file : Option (String × String)) :
    DState × Nat :=
  match file with
  | some (name, _) =>
    match s.windows.find? (fun w => w.fileInfo == some (AppKind.doodle, name)) with
    | some w => (setActiveWindow s w.id, w.id)
    | none => openDoodlePadCreate s file
  | none => openDoodlePadCreate s none

/-- `openImageStudio`: focus the existing studio window if registered,
otherwise create one. -/
def openImageStudio (s : DState) : DState × Nat :=
  match keyLookup s "studio" with
  | some wid => (setActiveWindow s wid, wid)
  | none =>
    let (s1, wid) := createAppWindow s "🖼️ Image Studio" "" .studio
    (keySet s1 "studio" wid, wid)

/-- `openImageStudioWithContent`: open/focus the studio, display the stored
image and bind the file. -/
def openImageStudioWithContent (s : DState) (name content : String) :
    DState × Nat :=
  let (s1, wid) := openImageStudio s
  let s2 := setActiveWindow s1 wid
  (updateWin s2 wid (fun w =>
    { w with
      imgSrc := some content
      fileInfo := some (.studio, name)
      title := "🖼️ " ++ name }), wid)

/-- ASCII lower-casing of one character (`String.prototype.toLowerCase` on
the ASCII filenames involved). -/
def charLower (c : Char) : Char :=
  if 65 ≤ c.toNat ∧ c.toNat ≤ 90 then Char.ofNat (c.toNat + 32) else c

/-- `name.toLowerCase()`. -/
def strToLower (t : String) : String := String.mk (t.data.map charLower)

/-- Whether the second character list is a prefix of the first. -/
def charListPrefix : List Char → List Char → Bool
  | [], _ => true
  | _ :: _, [] => false
  | a :: as, b :: bs => a == b && charListPrefix as bs

/-- Whether the needle occurs in the haystack (argument order: haystack,
needle). -/
def charListContains : List Char → List Char → Bool
  | [], needle => needle.isEmpty
  | hay@(_ :: rest), needle => charListPrefix needle hay || charListContains rest needle

/-- `hay.includes(needle)` for the lower-cased filename test. -/
def strContains (hay needle : String) : Bool :=
  charListContains hay.data needle.data

/-- `openImageViewer`: focus an open doodle/studio window bound to the name;
otherwise route by whether the lower-cased name contains "doodle". -/
def openImageViewer (s : DState) (name content : String) : DState :=
  match s.windows.find? (fun w =>
      match w.fileInfo with
      | some (t, n) => (t == AppKind.doodle || t == AppKind.studio) && n == name
      | none => false) with
  | some w => setActiveWindow s w.id
  | none =>
    if strContains (strToLower name) "doodle" then
      (openDoodlePad s (some (name, content))).1
    else
      (openImageStudioWithContent s name content).1

/-- `openFileExplorer`: focus the existing explorer window if registered,
otherwise create one (the file listing it renders is display-only). -/
def openFileExplorer (s : DState) : DState × Nat :=
  match keyLookup s "explorer" with
  | some wid => (setActiveWindow s wid, wid)
  | none =>
    let (s1, wid) := createAppWindow s "📁 File Explorer" "" .explorer
    (keySet s1 "explorer" wid, wid)

/-- Dispatch of a real click on a desktop icon (the icon elements' `click`
listeners). -/
def runIconClick (s : DState) (k : AppKind) : DState :=
  match k with
  | .docs => (openDocumentWriter s none).1
  | .browser => (openBrowser s).1
  | .doodle => (openDoodlePad s none).1
  | .studio => (openImageStudio s).1
  | .explorer => (openFileExplorer s).1

/-- The `click` action and the simulated click inside `openAppViaIcon`:
`elementFromPoint(cursor + 12, cursor + 12)`, then `.click()`.  App windows
have no click listener, so a click landing on a window does nothing; a click
landing on an uncovered icon fires that icon's open handler. -/
def clickStep (s : DState) : DState :=
  let px := s.cursorX + 12
  let py := s.cursorY + 12
  match windowAtPoint s px py with
  | some _ => s
  | none =>
    match iconAtPoint s px py with
    | some k => runIconClick s k
    | none => s

/-- First unbound document window in `openWindows.values()` insertion order
(used by `place_image_in_doc`). -/
def findUnboundDocs (s : DState) : Option Nat :=
  (((s.openWinKeys.filterMap (fun p => findWin s p.2)).find?
    (fun w => w.app == AppKind.docs && w.fileInfo == none)).map (fun w => w.id))

/-- Highest-z unbound document window among `openWindows.values()` (the
post-click resolution of `openAppViaIcon` for the document editor). -/
def newestUnboundDocs (s : DState) : Option Nat :=
  (((s.openWinKeys.filterMap (fun p => findWin s p.2)).filter
      (fun w => w.app == AppKind.docs && w.fileInfo == none)).foldl
    (fun acc w =>
      match acc with
      | none => some w
      | some b => if b.z < w.z then some w else some b) none).map (fun w => w.id)

/-- `openAppViaIcon`: focus directly if the target already exists (singleton
key, or an unbound document window); otherwise animate the cursor to the icon
centre, simulate a click there, and resolve the newly created window. -/
def openAppViaIcon (s : DState) (appId : AppKind) : DState × Option Nat :=
  let direct : Option Nat :=
    match appId with
    | .docs => findUnboundDocs s
    | k => keyLookup s (appStr k)
  match direct with
  | some wid => (setActiveWindow s wid, some wid)
  | none =>
    match iconRectOf s appId with
    | none => (s, none)
    | some icon =>
      let cx := icon.left + icon.width / 2
      let cy := icon.top + icon.height / 2
      let s1 := { s with cursorX := cx, cursorY := cy }
      let s2 := clickStep s1
      match appId with
      | .docs => (s2, newestUnboundDocs s2)
      | k => (s2, keyLookup s2 (appStr k))

/-- Selector resolution for `move_mouse_to_element`: the modelled DOM exposes
the five desktop icons and the app-window elements; the resolved target is
the element's centre in desktop coordinates. -/
def resolveElemCenter (s : DState) (sel : String) : Option (Int × Int) :=
  match s.icons.find? (fun i => iconSelector i.app == sel) with
  | some i => some (i.left + i.width / 2, i.top + i.height / 2)
  | none =>
    match s.windows.find? (fun w => sel == "#" ++ w.idStr) with
    | some w => some (w.left + w.width / 2, w.top + w.height / 2)
    | none => none

/-- Resolve `document.querySelector(sel)` to a window element. -/
def findWindowBySelector (s : DState) (sel : String) : Option Window :=
  s.windows.find? (fun w => sel == "#" ++ w.idStr)

/-- `dragWindow`: refuse with a chat message when the selector resolves to no
window or the window is maximized; otherwise animate cursor and window to the
target, clamping the window's final position to the desktop bounds. -/
def dragWindow (s : DState) (sel : String) (targetX targetY : Int) : DState :=
  match findWindowBySelector s sel with
  | none => addMessage s "I tried to move a window, but I couldn't find it."
  | some w =>
    if w.maximized then
      addMessage s "I can't move that window because it's maximized."
    else
      let headerCenterX := w.left + w.width / 2
      let headerCenterY := w.top + headerHeight / 2
      let offsetX := headerCenterX - w.left
      let offsetY := headerCenterY - w.top
      let wx := max 0 (min (targetX - offsetX) (s.desktopW - w.width))
      let wy := max 0 (min (targetY - offsetY) (s.desktopH - w.height))
      let s1 := { s with cursorX := wx + offsetX, cursorY := wy + offsetY }
      updateWin s1 w.id (fun w2 => { w2 with left := wx, top := wy })

/-- The `elementDrag` handler of `makeDraggable`: one mouse-move of the
interactive header drag, with deltas `(dX, dY)`, clamped to the desktop. -/
def elementDrag (desktopW desktopH : Int) (w : Window) (dX dY : Int) : Window :=
  if w.maximized then w
  else
    let newLeft := max 0 (min (w.left - dX) (desktopW - w.width))
    let newTop := max 0 (min (w.top - dY) (desktopH - w.height))
    { w with left := newLeft, top := newTop }

/-- `getFiles`: the client-side file store of the logged-in user. -/
def getFiles (s : DState) : FilesDB := s.files

/-- `type.slice(0, -1)`. -/
def fileTypeSingular (t : String) : String := t.dropRight 1

/-- `saveFile(type, name, content)`: write the entry into the local store
(synced to the backend) and report the save in the chat. -/
def saveFile (s : DState) (ftype : String) (name content : String) : DState :=
  let s1 :=
    if ftype == "documents" then
      { s with files :=
        { s.files with documents := fmSet s.files.documents name ⟨content, s.now⟩ } }
    else
      { s with files :=
        { s.files with images := fmSet s.files.images name ⟨content, s.now⟩ } }
  addMessage s1 ("Saved " ++ fileTypeSingular ftype ++ " as \"" ++ name ++ "\"")

/-- `deleteFile(type, name)`: remove the entry (only for a valid namespace)
and report the deletion in the chat. -/
def deleteFile (s : DState) (ftype : String) (name : String) : DState :=
  let s1 :=
    if ftype == "documents" then
      { s with files := { s.files with documents := fmErase s.files.documents name } }
    else if ftype == "images" then
      { s with files := { s.files with images := fmErase s.files.images name } }
    else s
  addMessage s1 ("Deleted " ++ fileTypeSingular ftype ++ ": \"" ++ name ++ "\"")

/-- Consume one result from the image-generation oracle; an exhausted stream
models a failing network call. -/
def popGen (s : DState) : GenResult × DState :=
  match s.genResults with
  | [] => (GenResult.err, s)
  | r :: rest => (r, { s with genResults := rest })

/-- Interpolation of a possibly-missing string field (`${undefined}`). -/
def optText (o : Option String) : String := o.getD "undefined"

/-- Missing-field truthiness (`if (action.filename)`). -/
def truthy (o : Option String) : Bool :=
  match o with
  | some t => t != ""
  | none => false

/-- `useImageStudio(prompt)`: open/focus the studio, then generate.  The image
container is replaced by a spinner while generating; success renders the image
and copies it to the clipboard; a null result or a thrown error renders inline
error text and emits no chat message. -/
def useImageStudio (s : DState) (_prompt : Option String) : DState :=
  let pre : DState × Option Nat :=
    match keyLookup s "studio" with
    | some wid => (s, some wid)
    | none => openAppViaIcon s .studio
  match pre with
  | (s0, none) => addMessage s0 "I couldn't open the Image Studio."
  | (s0, some wid) =>
    let s1 := setActiveWindow s0 wid
    let s2 := updateWin s1 wid (fun w => { w with imgSrc := none })
    let (res, s3) := popGen s2
    match res with
    | .ok data =>
      let url := "data:image/jpeg;base64," ++ data
      let s4 := updateWin s3 wid (fun w => { w with imgSrc := some url })
      { s4 with clipboard := some ⟨"image", url⟩ }
    | .nullRes => s3
    | .err => s3

/-- Paint the accepted polylines (length ≥ 2) of a `doodle` action onto the
doodle canvas; rasterization is abstracted as appending an injective textual
encoding of each stroke to the canvas state. -/
def drawDoodleLines (s : DState) (wid : Nat) (lines : List (List (Int × Int))) :
    DState :=
  lines.foldl
    (fun acc line =>
      if line.length < 2 then acc
      else updateWin acc wid (fun w => { w with content := w.content ++ toString line }))
    s

/-- `useDoodlePad(lines)`: get or open the doodle window (reporting a chat
message when that fails); with the window in hand, `for (const line of lines)`
throws when the model omitted the `lines` field. -/
def useDoodlePad (s : DState) (lines : Option (List (List (Int × Int)))) :
    DState × Option String :=
  let pre : DState × Option Nat :=
    match keyLookup s "doodle" with
    | some wid => (s, some wid)
    | none => openAppViaIcon s .doodle
  match pre with
  | (s0, none) => (addMessage s0 "I couldn't open the Doodle Pad.", none)
  | (s0, some wid) =>
    let s1 := setActiveWindow s0 wid
    match lines with
    | none => (s1, some "TypeError: undefined is not iterable")
    | some ls => (drawDoodleLines s1 wid ls, none)

/-- The `find_image` case: headless generation; success writes the clipboard,
a null payload is silent, a thrown error is caught and reported in the chat. -/
def findImageStep (s : DState) (prompt : Option String) : DState :=
  let (res, s1) := popGen s
  match res with
  | .ok data =>
    { s1 with clipboard := some ⟨"image", "data:image/jpeg;base64," ++ data⟩ }
  | .nullRes => s1
  | .err =>
    addMessage s1 ("Sorry, I couldn't create an image for: \"" ++ optText prompt ++ "\"")

/-- The image markup appended by `place_image_in_doc`. -/
def imgTag (data : String) : String :=
  "<img src=\"" ++ data ++ "\" alt=\"AI Generated Image\">"

/-- The `place_image_in_doc` case: requires an image on the clipboard; locates
an unbound document window or opens one on demand, then appends the image
markup to its body; the clipboard is not cleared. -/
def placeImageInDocStep (s : DState) : DState :=
  match s.clipboard with
  | some clip =>
    if clip.ctype == "image" then
      let pre : DState × Option Nat :=
        match findUnboundDocs s with
        | some wid => (s, some wid)
        | none => openAppViaIcon s .docs
      match pre with
      | (s1, some wid) =>
        let s2 := setActiveWindow s1 wid
        updateWin s2 wid (fun w => { w with content := w.content ++ imgTag clip.data })
      | (s1, none) => addMessage s1 "I couldn't open a document to place the image."
    else addMessage s "There's no image on the clipboard to place."
  | none => addMessage s "There's no image on the clipboard to place."

/-- The `open_file` case: missing filename is silently skipped; lookup order
is documents then images; both missing reports a chat message. -/
def openFileStep (s : DState) (filename : Option String) : DState :=
  match filename with
  | some n =>
    if n != "" then
      let files := getFiles s
      match fmLookup files.documents n with
      | some fd => (openDocumentWriter s (some (n, fd.content))).1
      | none =>
        match fmLookup files.images n with
        | some fd => openImageViewer s n fd.content
        | none => addMessage s ("File not found: \"" ++ n ++ "\"")
    else s
  | none => s

/-- The `save_active_file` case: requires an active window and a filename;
documents save the body HTML, the doodle pad saves `canvas.toDataURL()`, the
studio saves the displayed image's `src` (silently skipping when no image is
shown); other app kinds are silently skipped. -/
def saveActiveFileStep (s : DState) (filename : Option String) : DState :=
  match s.activeWindow, filename with
  | some wid, some n =>
    if n != "" then
      match findWin s wid with
      | none => s
      | some w =>
        match w.app with
        | .docs =>
          let s1 := saveFile s "documents" n w.content
          updateWin s1 wid (fun w2 =>
            { w2 with fileInfo := some (.docs, n), title := "📝 " ++ n })
        | .doodle =>
          let s1 := saveFile s "images" n w.content
          updateWin s1 wid (fun w2 =>
            { w2 with fileInfo := some (.doodle, n), title := "🎨 " ++ n })
        | .studio =>
          match w.imgSrc with
          | some src =>
            let s1 := saveFile s "images" n src
            updateWin s1 wid (fun w2 =>
              { w2 with fileInfo := some (.studio, n), title := "🖼️ " ++ n })
          | none => s
        | _ => s
    else s
  | _, _ => s

/-- The `delete_file` case: missing filename is silently skipped; the name is
tried against documents first, then images; a miss in both reports a chat
message (the explorer re-render is display-only). -/
def deleteFileStep (s : DState) (filename : Option String) : DState :=
  match filename with
  | some n =>
    if n != "" then
      let files := getFiles s
      match fmLookup files.documents n with
      | some _ => deleteFile s "documents" n
      | none =>
        match fmLookup files.images n with
        | some _ => deleteFile s "images" n
        | none => addMessage s ("File not found: \"" ++ n ++ "\"")
    else s
  | none => s

/-- The `drag_window` case: all three parameters must be present (and the
selector truthy) or a chat message reports the missing details. -/
def dragWindowStep (s : DState) (sel : Option String) (x y : Option Int) :
    DState :=
  match sel, x, y with
  | some selStr, some tx, some ty =>
    if selStr != "" then dragWindow s selStr tx ty
    else addMessage s "I was asked to move a window, but the details were missing."
  | _, _, _ =>
    addMessage s "I was asked to move a window, but the details were missing."

/-- `text.replace(/\n/g, '<br>')`: every newline becomes a break tag. -/
def replaceNewlines (t : String) : String :=
  String.mk (t.data.foldr
    (fun c acc => if c = '\n' then '<' :: 'b' :: 'r' :: '>' :: acc else c :: acc) [])

/-- The `type` case: into the active document window's body (throwing when the
model omitted `text`, since `action.text.replace` is evaluated), or into a
focused input of the active non-document window (likewise throwing on missing
`text`; the Enter key event's async search handler is not awaited and lies
outside the modelled state). -/
def typeStep (s : DState) (text : Option String) (enter : Option Bool) :
    DState × Option String :=
  match s.activeWindow with
  | none => (s, none)
  | some wid =>
    match findWin s wid with
    | none => (s, none)
    | some w =>
      if w.app == AppKind.docs then
        match text with
        | none => (s, some "TypeError: cannot read properties of undefined")
        | some t =>
          let add := replaceNewlines t ++ (if enter.getD false then "<br>" else "")
          (updateWin s wid (fun w2 => { w2 with content := w2.content ++ add }), none)
      else
        match w.inputFocusedValue with
        | none => (s, none)
        | some v =>
          match text with
          | none => (s, some "TypeError: undefined is not iterable")
          | some t =>
            (updateWin s wid
              (fun w2 => { w2 with inputFocusedValue := some (v ++ t) }), none)

/-- The `move_mouse_to_element` case: an unresolved selector is silently
skipped; a resolved one moves the cursor to the element centre. -/
def moveMouseStep (s : DState) (sel : Option String) : DState :=
  match sel with
  | none => s
  | some selStr =>
    match resolveElemCenter s selStr with
    | some c => { s with cursorX := c.1, cursorY := c.2 }
    | none => s

/-- `followCursorPath`: the cursor animates through the polyline; only the
final position persists. -/
def followCursorPath (s : DState) (path : List (Int × Int)) : DState :=
  match path with
  | [] => s
  | p :: rest =>
    let last := rest.foldl (fun _ q => q) p
    { s with cursorX := last.1, cursorY := last.2 }

/-- The `draw_with_cursor` case: guarded by `Array.isArray`, so a missing
`lines` field is a silent no-op. -/
def drawWithCursorStep (s : DState) (lines : Option (List (List (Int × Int)))) :
    DState :=
  match lines with
  | some ls => ls.foldl followCursorPath s
  | none => s

/-- The action vocabulary.  Every parameter the response schema marks nullable
is an `Option`; `unknown` covers action strings outside the vocabulary (the
interpreter's switch falls through silently). -/
inductive Action where
  | speak (text : Option String)
  | moveMouseToElement (selector : Option String)
  | click
  | type (text : Option String) (enter : Option Bool)
  | scroll (selector : Option String) (pixels : Option Int)
  | doodle (lines : Option (List (List (Int × Int))))
  | drawWithCursor (lines : Option (List (List (Int × Int))))
  | generateImage (prompt : Option String)
  | findImage (prompt : Option String)
  | placeImageInDoc
  | listFiles
  | openFile (filename : Option String)
  | saveActiveFile (filename : Option String)
  | dragWindow (selector : Option String) (x : Option Int) (y : Option Int)
  | deleteFile (filename : Option String)
  | unknown (name : String)
deriving DecidableEq, Repr

/-- One iteration of the interpreter's switch.  The second component models a
JavaScript exception escaping the case: there is no try/catch around the
switch, so the exception propagates to the caller.  `scroll` only changes
scroll offsets, which lie outside the modelled state. -/
def execAction (s : DState) (a : Action) : DState × Option String :=
  match a with
  | .speak text => (addMessage s (optText text), none)
  | .moveMouseToElement sel => (moveMouseStep s sel, none)
  | .click => (clickStep s, none)
  | .type text enter => typeStep s text enter
  | .scroll _ _ => (s, none)
  | .doodle lines => useDoodlePad s lines
  | .drawWithCursor lines => (drawWithCursorStep s lines, none)
  | .generateImage prompt => (useImageStudio s prompt, none)
  | .findImage prompt => (findImageStep s prompt, none)
  | .placeImageInDoc => (placeImageInDocStep s, none)
  | .listFiles => ((openAppViaIcon s .explorer).1, none)
  | .openFile fn => (openFileStep s fn, none)
  | .saveActiveFile fn => (saveActiveFileStep s fn, none)
  | .dragWindow sel x y => (dragWindowStep s sel x y, none)
  | .deleteFile fn => (deleteFileStep s fn, none)
  | .unknown _ => (s, none)

/-- `executeActionSequence`: strictly ordered execution; an exception thrown
by one action's case aborts the remaining actions (it is caught only by
`handleUserInput`, outside the loop). -/
def executeActionSequence (s : DState) : List Action → DState × Option String
  | [] => (s, none)
  | a :: rest =>
    match execAction s a with
    | (s1, none) => executeActionSequence s1 rest
    | (s1, some e) => (s1, some e)

/-- Syntactic condition under which an action's case cannot throw: the only
unguarded accesses in the interpreter are `action.text.replace` /
`for ... of action.text` in the `type` case and `for ... of action.lines` in
the `doodle` case (via `useDoodlePad`). -/
def safeAction : Action → Bool
  | .type none _ => false
  | .doodle none => false
  | _ => true

/-- Spec-side classification of the chat messages one action emits: one per
`speak`, one per reported failure (caught `find_image` error, empty or
non-image clipboard, unopenable window, file not found in either namespace,
missing or unresolved or maximized `drag_window` target), and one
confirmation per save or delete that takes effect; precondition failures with
a missing filename or active window are silent. -/
def specMsgCount (s : DState) (a : Action) : Nat :=
  match a with
  | .speak _ => 1
  | .findImage _ => if (popGen s).1 = GenResult.err then 1 else 0
  | .placeImageInDoc =>
    match s.clipboard with
    | some c =>
      if c.ctype == "image" then
        if (findUnboundDocs s).isSome || (openAppViaIcon s .docs).2.isSome then 0
        else 1
      else 1
    | none => 1
  | .doodle _ =>
    if (keyLookup s "doodle").isSome || (openAppViaIcon s .doodle).2.isSome then 0
    else 1
  | .generateImage _ =>
    if (keyLookup s "studio").isSome || (openAppViaIcon s .studio).2.isSome then 0
    else 1
  | .openFile fn =>
    match fn with
    | some n =>
      if n != "" && (fmLookup s.files.documents n).isNone
          && (fmLookup s.files.images n).isNone then 1
      else 0
    | none => 0
  | .saveActiveFile fn =>
    match s.activeWindow, fn with
    | some wid, some n =>
      if n != "" then
        match findWin s wid with
        | some w =>
          match w.app with
          | .docs => 1
          | .doodle => 1
          | .studio => if w.imgSrc.isSome then 1 else 0
          | _ => 0
        | none => 0
      else 0
    | _, _ => 0
  | .deleteFile fn =>
    match fn with
    | some n => if n != "" then 1 else 0
    | none => 0
  | .dragWindow sel x y =>
    match sel, x, y with
    | some selStr, some _, some _ =>
      if selStr != "" then
        match findWindowBySelector s selStr with
        | some w => if w.maximized then 1 else 0
        | none => 1
      else 1
    | _, _, _ => 1
  | _ => 0

/-- Spec-side message count of a whole sequence, threading the state. -/
def specMsgSum (s : DState) : List Action → Nat
  | [] => 0
  | a :: rest => specMsgCount s a + specMsgSum (execAction s a).1 rest

/-- Well-formed state: window element ids are distinct (each DOM element is
one node). -/
def WFIds (s : DState) : Prop :=
  (s.windows.map (fun w => w.id)).Nodup

/-- Well-formed state: an `openFiles` binding's type matches the window's app
kind (bindings are only ever set on the matching app's windows). -/
def WFBindings (s : DState) : Prop :=
  ∀ w ∈ s.windows, ∀ t n, w.fileInfo = some (t, n) → w.app = t

/-- Well-formed state: every registry key refers to a live window element, and
a singleton key resolves to a window of its app kind. -/
def WFKeys (s : DState) : Prop :=
  ∀ p ∈ s.openWinKeys, ∃ w, findWin s p.2 = some w ∧
    ((p.1 = "browser" → w.app = .browser) ∧ (p.1 = "doodle" → w.app = .doodle) ∧
     (p.1 = "studio" → w.app = .studio) ∧ (p.1 = "explorer" → w.app = .explorer))

/-- Well-formed state: window ids were assigned from the id counter, so every
open window's id is below `nextId`. -/
def WFFresh (s : DState) : Prop :=
  ∀ w ∈ s.windows, w.id < s.nextId

end Workstation

namespace Workstation.Server

/-- The `DELETE /api/files/:type/:name` route handler of the backend
(src/workstation-server/src/server.ts), acting on the authenticated user's
file record: 400 for an invalid type, 404 when the named file is absent, 200
after deleting it. -/
def deleteFileRoute (files : FilesDB) (ftype name : String) : Nat × FilesDB :=
  if ftype != "documents" && ftype != "images" then (400, files)
  else
    let m := if ftype == "documents" then files.documents else files.images
    match fmLookup m name with
    | none => (404, files)
    | some _ =>
      if ftype == "documents" then
        (200, { files with documents := fmErase files.documents name })
      else
        (200, { files with images := fmErase files.images name })

end Workstation.Server

namespace Workstation

/-- A desktop icon for the concrete example states. -/
def icon0 (k : AppKind) (x : Int) : IconRect := ⟨k, x, 700, 64, 64⟩

/-- The icon row of the concrete example desktop. -/
def baseIcons : List IconRect :=
  [icon0 .docs 20, icon0 .browser 104, icon0 .doodle 188, icon0 .studio 272,
   icon0 .explorer 356]

/-- A concrete freshly-initialized desktop (post-login state). -/
def baseState : DState :=
  { desktopW := 1280
    desktopH := 800
    cursorX := 100
    cursorY := 100
    windows := []
    openWinKeys := []
    activeWindow := none
    clipboard := none
    files := ⟨[], []⟩
    chat := []
    nextId := 1
    zCounter := 10
    now := 0
    icons := baseIcons
    randPos := []
    genResults := [] }

/-- A concrete window template for the example states. -/
def mkWin (id : Nat) (app : AppKind) : Window :=
  { id := id
    idStr := "window-" ++ appStr app ++ "-" ++ toString id
    app := app
    title := ""
    left := 200
    top := 120
    width := 500
    height := 400
    maximized := false
    content := ""
    imgSrc := none
    inputFocusedValue := none
    fileInfo := none
    z := 10 }

/-- Concrete state: one active, unsaved document window. -/
def stDocActive : DState :=
  { baseState with
    windows := [mkWin 1 .docs]
    openWinKeys := [("docs-1", 1)]
    activeWindow := some 1
    nextId := 2
    zCounter := 11 }

/-- Concrete state: one active document window with body content. -/
def stDocHello : DState :=
  { stDocActive with
    windows := [{ mkWin 1 .docs with content := "hello" }] }

/-- Concrete state: an active doodle window whose canvas data is "B", while a
document named "x" with content "A" already exists in the store. -/
def stShadow : DState :=
  { baseState with
    windows := [{ mkWin 1 .doodle with content := "B" }]
    openWinKeys := [("doodle", 1)]
    activeWindow := some 1
    nextId := 2
    zCounter := 11
    files := ⟨[("x", ⟨"A", 0⟩)], []⟩ }

/-- Concrete state: the name "x" exists in both file namespaces. -/
def stBothNamespaces : DState :=
  { baseState with files := ⟨[("x", ⟨"A", 0⟩)], [("x", ⟨"B", 0⟩)]⟩ }

/-- Concrete state: one maximized document window. -/
def stMaxWin : DState :=
  { baseState with
    windows := [{ mkWin 1 .docs with maximized := true }]
    openWinKeys := [("docs-1", 1)]
    activeWindow := some 1
    nextId := 2
    zCounter := 11 }

/-- Concrete state: the three guarded singleton windows are open. -/
def stSingletons : DState :=
  { baseState with
    windows := [mkWin 1 .browser, mkWin 2 .studio, mkWin 3 .explorer]
    openWinKeys := [("browser", 1), ("studio", 2), ("explorer", 3)]
    activeWindow := some 3
    nextId := 4
    zCounter := 13 }

/-- Concrete state: an unbound document window plus an image clipboard. -/
def stDocClip : DState :=
  { stDocActive with clipboard := some ⟨"image", "IMGDATA"⟩ }

/-- Concrete state: empty desktop with an image clipboard. -/
def stClipOnly : DState :=
  { baseState with clipboard := some ⟨"image", "IMGDATA"⟩ }

/-- Concrete state: an active doodle window whose canvas data is "B", empty
file store. -/
def stDoodleActive : DState :=
  { baseState with
    windows := [{ mkWin 1 .doodle with content := "B" }]
    openWinKeys := [("doodle", 1)]
    activeWindow := some 1
    nextId := 2
    zCounter := 11 }

/-- Concrete state: an active studio window displaying an image. -/
def stStudioActive : DState :=
  { baseState with
    windows := [{ mkWin 1 .studio with imgSrc := some "IMGDATA" }]
    openWinKeys := [("studio", 1)]
    activeWindow := some 1
    nextId := 2
    zCounter := 11 }

/-- Concrete state: the name "x" exists only as a document. -/
def stDocsOnlyFile : DState :=
  { baseState with files := ⟨[("x", ⟨"A", 0⟩)], []⟩ }

/-- Concrete state: an unbound doodle window is open while an image file whose
name contains "doodle" is stored. -/
def stDoodleOpenImage : DState :=
  { stDoodleActive with files := ⟨[], [("mydoodle", ⟨"D", 0⟩)]⟩ }

end Workstation

namespace Workstation

theorem chat_addMessage (s : DState) (m : String) :
    (addMessage s m).chat = s.chat ++ [m] := rfl

theorem chat_updateWin (s : DState) (wid : Nat) (f : Window → Window) :
    (updateWin s wid f).chat = s.chat := rfl

theorem chat_keySet (s : DState) (k : String) (wid : Nat) :
    (keySet s k wid).chat = s.chat := by
  unfold keySet
  split <;> rfl

theorem chat_setActiveWindow (s : DState) (wid : Nat) :
    (setActiveWindow s wid).chat = s.chat := by
  unfold setActiveWindow
  split <;> rfl

theorem chat_popRand (s : DState) : ((popRand s).2).chat = s.chat := by
  unfold popRand
  split <;> rfl

theorem chat_createAppWindow (s : DState) (t c : String) (app : AppKind) :
    ((createAppWindow s t c app).1).chat = s.chat := by
  unfold createAppWindow
  simp [chat_setActiveWindow, chat_popRand]

theorem chat_openDocumentWriterCreate (s : DState) (f : Option (String × String)) :
    ((openDocumentWriterCreate s f).1).chat = s.chat := by
  unfold openDocumentWriterCreate
  cases f <;> simp [chat_updateWin, chat_keySet, chat_createAppWindow]

theorem chat_openDocumentWriter (s : DState) (f : Option (String × String)) :
    ((openDocumentWriter s f).1).chat = s.chat := by
  unfold openDocumentWriter
  cases f with
  | none => exact chat_openDocumentWriterCreate s none
  | some p =>
    cases h : findBoundDocsWindow s p.1 <;>
      simp [chat_setActiveWindow, chat_openDocumentWriterCreate, h]

theorem chat_openBrowser (s : DState) : ((openBrowser s).1).chat = s.chat := by
  unfold openBrowser
  cases h : keyLookup s "browser" <;>
    simp [chat_setActiveWindow, chat_keySet, chat_createAppWindow]

theorem chat_openDoodlePadCreate (s : DState) (f : Option (String × String)) :
    ((openDoodlePadCreate s f).1).chat = s.chat := by
  unfold openDoodlePadCreate
  cases f with
  | none => simp [chat_keySet, chat_createAppWindow]
  | some p =>
    by_cases h : p.2 != "" <;>
      simp [h, chat_updateWin, chat_keySet, chat_createAppWindow]

theorem chat_openDoodlePad (s : DState) (f : Option (String × String)) :
    ((openDoodlePad s f).1).chat = s.chat := by
  unfold openDoodlePad
  cases f with
  | none => exact chat_openDoodlePadCreate s none
  | some p =>
    cases h : s.windows.find? (fun w => w.fileInfo == some (AppKind.doodle, p.1)) <;>
      simp [chat_setActiveWindow, chat_openDoodlePadCreate, h]

theorem chat_openImageStudio (s : DState) : ((openImageStudio s).1).chat = s.chat := by
  unfold openImageStudio
  cases h : keyLookup s "studio" <;>
    simp [chat_setActiveWindow, chat_keySet, chat_createAppWindow]

theorem chat_openImageStudioWithContent (s : DState) (n c : String) :
    ((openImageStudioWithContent s n c).1).chat = s.chat := by
  unfold openImageStudioWithContent
  simp [chat_updateWin, chat_setActiveWindow, chat_openImageStudio]

theorem chat_openImageViewer (s : DState) (n c : String) :
    (openImageViewer s n c).chat = s.chat := by
  unfold openImageViewer
  split
  case _ => exact chat_setActiveWindow _ _
  case _ =>
    split
    case _ => exact chat_openDoodlePad _ _
    case _ => exact chat_openImageStudioWithContent _ _ _

theorem chat_openFileExplorer (s : DState) : ((openFileExplorer s).1).chat = s.chat := by
  unfold openFileExplorer
  cases h : keyLookup s "explorer" <;>
    simp [chat_setActiveWindow, chat_keySet, chat_createAppWindow]

theorem chat_runIconClick (s : DState) (k : AppKind) :
    (runIconClick s k).chat = s.chat := by
  unfold runIconClick
  cases k
  case docs => exact chat_openDocumentWriter s none
  case doodle => exact chat_openDoodlePad s none
  case studio => exact chat_openImageStudio s
  case browser => exact chat_openBrowser s
  case explorer => exact chat_openFileExplorer s

theorem chat_clickStep (s : DState) : (clickStep s).chat = s.chat := by
  unfold clickStep
  dsimp only
  split
  case _ => rfl
  case _ =>
    split
    case _ => exact chat_runIconClick _ _
    case _ => rfl

theorem chat_openAppViaIcon (s : DState) (k : AppKind) :
    ((openAppViaIcon s k).1).chat = s.chat := by
  unfold openAppViaIcon
  cases k <;> dsimp only <;>
    repeat' first
      | rfl
      | exact chat_setActiveWindow _ _
      | (rw [chat_clickStep])
      | split

end Workstation

namespace Workstation

theorem chat_popGen (s : DState) : ((popGen s).2).chat = s.chat := by
  unfold popGen
  split <;> rfl

theorem chat_moveMouseStep (s : DState) (sel : Option String) :
    (moveMouseStep s sel).chat = s.chat := by
  unfold moveMouseStep
  cases sel
  case none => rfl
  case some selStr => cases h : resolveElemCenter s selStr <;> simp [h]

theorem chat_followCursorPath (s : DState) (p : List (Int × Int)) :
    (followCursorPath s p).chat = s.chat := by
  unfold followCursorPath
  split <;> rfl

theorem chat_foldl_followCursorPath (ls : List (List (Int × Int))) (s : DState) :
    (ls.foldl followCursorPath s).chat = s.chat := by
  induction ls generalizing s with
  | nil => rfl
  | cons p rest ih =>
    rw [List.foldl_cons, ih (followCursorPath s p), chat_followCursorPath]

theorem chat_drawWithCursorStep (s : DState) (l : Option (List (List (Int × Int)))) :
    (drawWithCursorStep s l).chat = s.chat := by
  unfold drawWithCursorStep
  cases l
  case none => rfl
  case some ls => exact chat_foldl_followCursorPath ls s

theorem chat_drawDoodleLines (s : DState) (wid : Nat)
    (ls : List (List (Int × Int))) : (drawDoodleLines s wid ls).chat = s.chat := by
  unfold drawDoodleLines
  induction ls generalizing s with
  | nil => rfl
  | cons p rest ih =>
    rw [List.foldl_cons]
    split <;> rw [ih]
    rw [chat_updateWin]

theorem chat_typeStep (s : DState) (text : Option String) (enter : Option Bool) :
    ((typeStep s text enter).1).chat = s.chat := by
  unfold typeStep
  repeat' first
    | rfl
    | exact chat_updateWin _ _ _
    | split

theorem chat_saveFile (s : DState) (t n c : String) :
    (saveFile s t n c).chat =
      s.chat ++ ["Saved " ++ fileTypeSingular t ++ " as \"" ++ n ++ "\""] := by
  unfold saveFile
  split <;> rfl

theorem chat_deleteFile (s : DState) (t n : String) :
    (deleteFile s t n).chat =
      s.chat ++ ["Deleted " ++ fileTypeSingular t ++ ": \"" ++ n ++ "\""] := by
  unfold deleteFile
  split
  case _ => rfl
  case _ => split <;> rfl

theorem chat_useDoodlePad (s : DState) (lines : Option (List (List (Int × Int)))) :
    ((useDoodlePad s lines).1).chat =
      if (keyLookup s "doodle").isSome || (openAppViaIcon s .doodle).2.isSome then
        s.chat
      else s.chat ++ ["I couldn't open the Doodle Pad."] := by
  unfold useDoodlePad
  cases hk : keyLookup s "doodle" with
  | some wid =>
    dsimp only
    cases lines <;> simp [chat_setActiveWindow, chat_drawDoodleLines]
  | none =>
    dsimp only
    rcases ho : openAppViaIcon s .doodle with ⟨s0, wopt⟩
    have hc : s0.chat = s.chat := by
      have := chat_openAppViaIcon s .doodle
      rw [ho] at this
      exact this
    cases wopt with
    | none => simp [chat_addMessage, hc, ho]
    | some wid =>
      cases lines <;> simp [ho, chat_setActiveWindow, chat_drawDoodleLines, hc]

theorem chat_useImageStudio (s : DState) (p : Option String) :
    (useImageStudio s p).chat =
      if (keyLookup s "studio").isSome || (openAppViaIcon s .studio).2.isSome then
        s.chat
      else s.chat ++ ["I couldn't open the Image Studio."] := by
  unfold useImageStudio
  cases hk : keyLookup s "studio" with
  | some wid =>
    dsimp only
    rcases hg : popGen (updateWin (setActiveWindow s wid) wid fun w => { w with imgSrc := none })
      with ⟨res, s3⟩
    have hc3 : s3.chat = s.chat := by
      have := chat_popGen (updateWin (setActiveWindow s wid) wid fun w => { w with imgSrc := none })
      rw [hg] at this
      rw [this, chat_updateWin, chat_setActiveWindow]
    cases res <;> simp [hg, hc3, chat_updateWin]
  | none =>
    dsimp only
    rcases ho : openAppViaIcon s .studio with ⟨s0, wopt⟩
    have hc : s0.chat = s.chat := by
      have := chat_openAppViaIcon s .studio
      rw [ho] at this
      exact this
    cases wopt with
    | none => simp [chat_addMessage, hc, ho]
    | some wid =>
      rcases hg : popGen (updateWin (setActiveWindow s0 wid) wid fun w => { w with imgSrc := none })
        with ⟨res, s3⟩
      have hc3 : s3.chat = s.chat := by
        have := chat_popGen (updateWin (setActiveWindow s0 wid) wid fun w => { w with imgSrc := none })
        rw [hg] at this
        rw [this, chat_updateWin, chat_setActiveWindow, hc]
      cases res <;> simp [ho, hg, hc3, chat_updateWin]

theorem chat_findImageStep (s : DState) (p : Option String) :
    (findImageStep s p).chat =
      if (popGen s).1 = GenResult.err then
        s.chat ++ ["Sorry, I couldn't create an image for: \"" ++ optText p ++ "\""]
      else s.chat := by
  unfold findImageStep
  rcases hg : popGen s with ⟨res, s1⟩
  have hc : s1.chat = s.chat := by
    have := chat_popGen s
    rw [hg] at this
    exact this
  cases res <;> simp [hg, hc, chat_addMessage]

theorem chat_placeImageInDocStep (s : DState) :
    (placeImageInDocStep s).chat.length = s.chat.length + specMsgCount s .placeImageInDoc := by
  unfold placeImageInDocStep specMsgCount
  cases hcb : s.clipboard with
  | none => simp [chat_addMessage]
  | some clip =>
    dsimp only
    by_cases hty : clip.ctype == "image"
    · simp only [hty, if_true]
      cases hu : findUnboundDocs s with
      | some wid =>
        simp [hu, chat_updateWin, chat_setActiveWindow]
      | none =>
        rcases ho : openAppViaIcon s .docs with ⟨s1, dopt⟩
        have hc : s1.chat = s.chat := by
          have := chat_openAppViaIcon s .docs
          rw [ho] at this
          exact this
        cases dopt with
        | some wid => simp [hu, ho, chat_updateWin, chat_setActiveWindow, hc]
        | none => simp [hu, ho, chat_addMessage, hc]
    · simp [hty, chat_addMessage]

end Workstation

namespace Workstation

theorem chatlen_openFileStep (s : DState) (fn : Option String) :
    (openFileStep s fn).chat.length = s.chat.length + specMsgCount s (.openFile fn) := by
  unfold openFileStep specMsgCount
  cases fn with
  | none => simp
  | some n =>
    dsimp only
    by_cases hn : n != ""
    · cases hd : fmLookup s.files.documents n with
      | some fd => simp [hn, hd, getFiles, chat_openDocumentWriter]
      | none =>
        cases hi : fmLookup s.files.images n with
        | some fd => simp [hn, hd, hi, getFiles, chat_openImageViewer]
        | none => simp [hn, hd, hi, getFiles, chat_addMessage]
    · simp [hn]

theorem chatlen_saveActiveFileStep (s : DState) (fn : Option String) :
    (saveActiveFileStep s fn).chat.length =
      s.chat.length + specMsgCount s (.saveActiveFile fn) := by
  unfold saveActiveFileStep specMsgCount
  cases ha : s.activeWindow with
  | none => simp
  | some wid =>
    cases fn with
    | none => simp
    | some n =>
      dsimp only
      by_cases hn : n != ""
      · cases hw : findWin s wid with
        | none => simp [hn, hw]
        | some w =>
          cases happ : w.app <;>
            simp [hn, hw, happ, chat_updateWin, chat_saveFile]
          cases hsrc : w.imgSrc <;>
            simp [hsrc, chat_updateWin, chat_saveFile]
      · simp [hn]

theorem chatlen_deleteFileStep (s : DState) (fn : Option String) :
    (deleteFileStep s fn).chat.length =
      s.chat.length + specMsgCount s (.deleteFile fn) := by
  unfold deleteFileStep specMsgCount
  cases fn with
  | none => simp
  | some n =>
    dsimp only
    by_cases hn : n != ""
    · cases hd : fmLookup s.files.documents n with
      | some fd => simp [hn, hd, getFiles, chat_deleteFile]
      | none =>
        cases hi : fmLookup s.files.images n with
        | some fd => simp [hn, hd, hi, getFiles, chat_deleteFile]
        | none => simp [hn, hd, hi, getFiles, chat_addMessage]
    · simp [hn]

theorem chatlen_dragWindow (s : DState) (sel : String) (tx ty : Int) :
    (dragWindow s sel tx ty).chat.length =
      s.chat.length +
        (match findWindowBySelector s sel with
         | some w => if w.maximized then 1 else 0
         | none => 1) := by
  unfold dragWindow
  cases hf : findWindowBySelector s sel with
  | none => simp [chat_addMessage]
  | some w =>
    by_cases hm : w.maximized
    · simp [hm, chat_addMessage]
    · simp [hm, chat_updateWin]

theorem chatlen_dragWindowStep (s : DState) (sel : Option String) (x y : Option Int) :
    (dragWindowStep s sel x y).chat.length =
      s.chat.length + specMsgCount s (.dragWindow sel x y) := by
  unfold dragWindowStep specMsgCount
  cases sel with
  | none => cases x <;> cases y <;> simp [chat_addMessage]
  | some selStr =>
    cases x with
    | none => cases y <;> simp [chat_addMessage]
    | some tx =>
      cases y with
      | none => simp [chat_addMessage]
      | some ty =>
        dsimp only
        by_cases hs : selStr != ""
        · rw [if_pos hs, if_pos hs, chatlen_dragWindow]
        · simp [hs, chat_addMessage]

theorem chatlen_execAction (s : DState) (a : Action)
    (h : (execAction s a).2 = none) :
    ((execAction s a).1).chat.length = s.chat.length + specMsgCount s a := by
  cases a with
  | speak text => simp [execAction, specMsgCount, chat_addMessage, optText]
  | moveMouseToElement sel => simp [execAction, specMsgCount, chat_moveMouseStep]
  | click => simp [execAction, specMsgCount, chat_clickStep]
  | type text enter => simp [execAction, specMsgCount, chat_typeStep]
  | scroll sel px => simp [execAction, specMsgCount]
  | doodle lines =>
    have := chat_useDoodlePad s lines
    simp only [execAction, specMsgCount]
    rw [this]
    split <;> simp
  | drawWithCursor lines => simp [execAction, specMsgCount, chat_drawWithCursorStep]
  | generateImage p =>
    have := chat_useImageStudio s p
    simp only [execAction, specMsgCount]
    rw [this]
    split <;> simp
  | findImage p =>
    have := chat_findImageStep s p
    simp only [execAction, specMsgCount]
    rw [this]
    split <;> simp
  | placeImageInDoc => simpa [execAction] using chat_placeImageInDocStep s
  | listFiles => simp [execAction, specMsgCount, chat_openAppViaIcon]
  | openFile fn => simpa [execAction] using chatlen_openFileStep s fn
  | saveActiveFile fn => simpa [execAction] using chatlen_saveActiveFileStep s fn
  | dragWindow sel x y => simpa [execAction] using chatlen_dragWindowStep s sel x y
  | deleteFile fn => simpa [execAction] using chatlen_deleteFileStep s fn
  | unknown n => simp [execAction, specMsgCount]

theorem execAction_safe (s : DState) (a : Action) (h : safeAction a = true) :
    (execAction s a).2 = none := by
  cases a with
  | type text enter =>
    cases text with
    | none => simp [safeAction] at h
    | some t =>
      simp only [execAction]
      unfold typeStep
      repeat' first
        | rfl
        | split
  | doodle lines =>
    cases lines with
    | none => simp [safeAction] at h
    | some ls =>
      simp only [execAction]
      unfold useDoodlePad
      dsimp only
      repeat' first
        | rfl
        | split
  | speak text => rfl
  | moveMouseToElement sel => rfl
  | click => rfl
  | scroll sel px => rfl
  | drawWithCursor lines => rfl
  | generateImage p => rfl
  | findImage p => rfl
  | placeImageInDoc => rfl
  | listFiles => rfl
  | openFile fn => rfl
  | saveActiveFile fn => rfl
  | dragWindow sel x y => rfl
  | deleteFile fn => rfl
  | unknown n => rfl

end Workstation

namespace Workstation

theorem eq_of_mem_id_nodup {l : List Window}
    (h : (l.map (fun w => w.id)).Nodup) {a b : Window}
    (ha : a ∈ l) (hb : b ∈ l) (hid : a.id = b.id) : a = b :=
  List.inj_on_of_nodup_map h ha hb hid

/-- C1 (corrected): the claim as stated is false — the interpreter loop has no
per-action try/catch, so an exception thrown inside one action's case (e.g. a
`type` action with a missing `text` field while a document window is active)
aborts all remaining actions.  What does hold is best-effort continuation for
every handled failure: an action whose case cannot throw (every action except
a `type` with missing text or a `doodle` with missing lines) never aborts the
sequence, whatever its unresolved selectors, missing preconditions or failed
lookups; hence a sequence of such actions always runs to completion. -/
theorem c1_best_effort_continuation :
    (∀ s a, safeAction a = true → (execAction s a).2 = none)
    ∧ (∀ s (as : List Action), (∀ a ∈ as, safeAction a = true) →
        (executeActionSequence s as).2 = none) := by
  refine ⟨execAction_safe, ?_⟩
  intro s as h
  induction as generalizing s with
  | nil => rfl
  | cons a rest ih =>
    have ha := h a (List.mem_cons_self a rest)
    have h2 := execAction_safe s a ha
    unfold executeActionSequence
    rcases he : execAction s a with ⟨s1, e⟩
    rw [he] at h2
    dsimp only at h2
    subst h2
    exact ih s1 (fun a2 ha2 => h a2 (List.mem_cons_of_mem a ha2))

theorem c1_witness :
    (∀ a ∈ [Action.speak (some "ok"), Action.openFile (some "nope"),
        Action.placeImageInDoc, Action.click], safeAction a = true)
    ∧ (executeActionSequence baseState [Action.speak (some "ok"),
        Action.openFile (some "nope"), Action.placeImageInDoc, Action.click]).2
      = none :=
  ⟨by decide, c1_best_effort_continuation.2 baseState _ (by decide)⟩

theorem c1_counterexample :
    (executeActionSequence stDocActive
        [Action.type none none, Action.speak (some "hi")]).2
      = some "TypeError: cannot read properties of undefined"
    ∧ (executeActionSequence stDocActive
        [Action.type none none, Action.speak (some "hi")]).1.chat = [] := by
  decide

/-- C2 (corrected): the stated equation (messages = speaks + failed
preconditions) is false, because a `save_active_file` or `delete_file` that
takes effect also emits one confirmation message, and some precondition
failures (missing filename, missing active window, unresolved `type`/`click`
targets) are silent.  The amended accounting holds exactly: along any
execution that no action aborts, the number of assistant messages emitted
equals the sum over the executed actions of their classification
`specMsgCount` — one per `speak`, one per reported failure, and one per save
or delete that takes effect. -/
theorem c2_message_accounting (s : DState) (as : List Action)
    (h : (executeActionSequence s as).2 = none) :
    ((executeActionSequence s as).1).chat.length
      = s.chat.length + specMsgSum s as := by
  induction as generalizing s with
  | nil => simp [executeActionSequence, specMsgSum]
  | cons a rest ih =>
    unfold executeActionSequence at h ⊢
    unfold specMsgSum
    rcases he : execAction s a with ⟨s1, e⟩
    rw [he] at h
    cases e with
    | some err => simp at h
    | none =>
      dsimp only at h ⊢
      have hlen := chatlen_execAction s a (by rw [he])
      rw [he] at hlen
      dsimp only at hlen
      rw [ih s1 h, hlen]
      omega

theorem c2_witness :
    (executeActionSequence stBothNamespaces
        [Action.speak (some "ok"), Action.openFile (some "nope"),
         Action.deleteFile (some "x")]).2 = none
    ∧ ((executeActionSequence stBothNamespaces
        [Action.speak (some "ok"), Action.openFile (some "nope"),
         Action.deleteFile (some "x")]).1).chat.length
      = stBothNamespaces.chat.length
        + specMsgSum stBothNamespaces
            [Action.speak (some "ok"), Action.openFile (some "nope"),
             Action.deleteFile (some "x")] :=
  ⟨by decide, c2_message_accounting stBothNamespaces _ (by decide)⟩

theorem c2_counterexample :
    ((executeActionSequence stDocHello [Action.saveActiveFile (some "f")]).1).chat.length = 1
    ∧ ([Action.saveActiveFile (some "f")].countP
        (fun a => match a with | Action.speak _ => true | _ => false)) = 0
    ∧ fmLookup ((executeActionSequence stDocHello
          [Action.saveActiveFile (some "f")]).1).files.documents "f"
      = some ⟨"hello", 0⟩ := by
  decide

/-- C7 (confirmed): `drag_window` on a maximized window, or with a selector
resolving to no window, changes nothing but the chat transcript: the result
state is exactly the input state with one explanatory message appended, so no
geometry field of any window changes and exactly one message is emitted. -/
theorem c7_drag_refusal :
    (∀ s sel tx ty w, findWindowBySelector s sel = some w → w.maximized = true →
      dragWindow s sel tx ty
        = addMessage s "I can't move that window because it's maximized."
      ∧ (dragWindow s sel tx ty).windows = s.windows
      ∧ (dragWindow s sel tx ty).chat.length = s.chat.length + 1)
    ∧ (∀ s sel tx ty, findWindowBySelector s sel = none →
      dragWindow s sel tx ty
        = addMessage s "I tried to move a window, but I couldn't find it."
      ∧ (dragWindow s sel tx ty).windows = s.windows
      ∧ (dragWindow s sel tx ty).chat.length = s.chat.length + 1) := by
  constructor
  · intro s sel tx ty w hf hm
    have he : dragWindow s sel tx ty
        = addMessage s "I can't move that window because it's maximized." := by
      unfold dragWindow
      rw [hf]
      simp [hm]
    refine ⟨he, ?_, ?_⟩ <;> rw [he] <;> simp [addMessage]
  · intro s sel tx ty hf
    have he : dragWindow s sel tx ty
        = addMessage s "I tried to move a window, but I couldn't find it." := by
      unfold dragWindow
      rw [hf]
    refine ⟨he, ?_, ?_⟩ <;> rw [he] <;> simp [addMessage]

end Workstation

namespace Workstation

theorem c7_witness :
    (dragWindow stMaxWin "#window-docs-1" 300 300
      = addMessage stMaxWin "I can't move that window because it's maximized.")
    ∧ (dragWindow baseState "#nothing" 300 300
      = addMessage baseState "I tried to move a window, but I couldn't find it.") :=
  ⟨(c7_drag_refusal.1 stMaxWin "#window-docs-1" 300 300
      { mkWin 1 .docs with maximized := true } (by decide) (by decide)).1,
   (c7_drag_refusal.2 baseState "#nothing" 300 300 (by decide)).1⟩

/-- C8 (confirmed): both window-moving operations clamp the final geometry to
the desktop: for any target coordinates (including targets outside the
desktop), after `drag_window` on a resolved non-maximized window that fits the
desktop, and after any interactive header-drag step, the window satisfies
`0 ≤ left ≤ desktopW - width` and `0 ≤ top ≤ desktopH - height`. -/
theorem c8_drag_clamped :
    (∀ s sel tx ty w, WFIds s → findWindowBySelector s sel = some w →
      w.maximized = false → w.width ≤ s.desktopW → w.height ≤ s.desktopH →
      ∀ w2 ∈ (dragWindow s sel tx ty).windows, w2.id = w.id →
        0 ≤ w2.left ∧ w2.left ≤ s.desktopW - w2.width
        ∧ 0 ≤ w2.top ∧ w2.top ≤ s.desktopH - w2.height)
    ∧ (∀ dW dH (w : Window) dX dY, w.maximized = false →
        w.width ≤ dW → w.height ≤ dH →
        0 ≤ (elementDrag dW dH w dX dY).left
        ∧ (elementDrag dW dH w dX dY).left ≤ dW - (elementDrag dW dH w dX dY).width
        ∧ 0 ≤ (elementDrag dW dH w dX dY).top
        ∧ (elementDrag dW dH w dX dY).top ≤ dH - (elementDrag dW dH w dX dY).height) := by
  constructor
  · intro s sel tx ty w hids hf hm hw hh w2 hmem hid
    have hwmem : w ∈ s.windows := List.mem_of_find?_eq_some hf
    unfold dragWindow at hmem
    rw [hf] at hmem
    simp only [hm, Bool.false_eq_true, if_false, updateWin] at hmem
    rcases List.mem_map.mp hmem with ⟨w3, hw3, hg⟩
    by_cases hcase : w3.id = w.id
    · have hww : w3 = w := eq_of_mem_id_nodup hids hw3 hwmem hcase
      subst hww
      simp only [hcase, beq_self_eq_true, if_true] at hg
      subst hg
      dsimp only
      refine ⟨?_, ?_, ?_, ?_⟩ <;> omega
    · rw [if_neg (by simpa using hcase)] at hg
      subst hg
      exact absurd hid hcase
  · intro dW dH w dX dY hm hw hh
    unfold elementDrag
    simp only [hm, Bool.false_eq_true, if_false]
    refine ⟨?_, ?_, ?_, ?_⟩ <;> omega

theorem c8_witness :
    (0 ≤ ({ mkWin 1 .docs with left := 780, top := 0 } : Window).left
      ∧ ({ mkWin 1 .docs with left := 780, top := 0 } : Window).left
          ≤ stDocActive.desktopW - ({ mkWin 1 .docs with left := 780, top := 0 } : Window).width
      ∧ 0 ≤ ({ mkWin 1 .docs with left := 780, top := 0 } : Window).top
      ∧ ({ mkWin 1 .docs with left := 780, top := 0 } : Window).top
          ≤ stDocActive.desktopH - ({ mkWin 1 .docs with left := 780, top := 0 } : Window).height)
    ∧ (0 ≤ (elementDrag 1280 800 (mkWin 1 .docs) (-9999) 9999).left
      ∧ (elementDrag 1280 800 (mkWin 1 .docs) (-9999) 9999).left
          ≤ 1280 - (elementDrag 1280 800 (mkWin 1 .docs) (-9999) 9999).width
      ∧ 0 ≤ (elementDrag 1280 800 (mkWin 1 .docs) (-9999) 9999).top
      ∧ (elementDrag 1280 800 (mkWin 1 .docs) (-9999) 9999).top
          ≤ 800 - (elementDrag 1280 800 (mkWin 1 .docs) (-9999) 9999).height) :=
  ⟨c8_drag_clamped.1 stDocActive "#window-docs-1" 9999 (-500) (mkWin 1 .docs)
      (by unfold WFIds; decide) (by decide) (by decide) (by decide) (by decide)
      { mkWin 1 .docs with left := 780, top := 0 } (by decide) (by decide),
   c8_drag_clamped.2 1280 800 (mkWin 1 .docs) (-9999) 9999
      (by decide) (by decide) (by decide)⟩

end Workstation

namespace Workstation

theorem windows_length_setActiveWindow (s : DState) (wid : Nat) :
    (setActiveWindow s wid).windows.length = s.windows.length := by
  unfold setActiveWindow
  split
  case _ => rfl
  case _ => simp [updateWin]

theorem windows_popRand (s : DState) : ((popRand s).2).windows = s.windows := by
  unfold popRand
  split <;> rfl

theorem windows_keySet (s : DState) (k : String) (wid : Nat) :
    (keySet s k wid).windows = s.windows := by
  unfold keySet
  split <;> rfl

theorem windows_length_createAppWindow (s : DState) (t c : String) (app : AppKind) :
    ((createAppWindow s t c app).1).windows.length = s.windows.length + 1 := by
  unfold createAppWindow
  rw [windows_length_setActiveWindow]
  simp [windows_popRand]

theorem windows_length_updateWin (s : DState) (wid : Nat) (f : Window → Window) :
    (updateWin s wid f).windows.length = s.windows.length := by
  simp [updateWin]

/-- C3 (corrected): the claim holds for the browser, the image studio, the
file explorer and for the interpreter's icon path (`openAppViaIcon`) on every
singleton kind — re-invoking focuses the registered window and creates no
second one.  It fails for the doodle pad: `openDoodlePad` (the doodle icon's
click handler, also reached by `open_file` for an image whose name contains
"doodle" that no open window is bound to) performs no singleton check and
always creates a fresh window, replacing the registry key while the previous
doodle window stays on the desktop, so two doodle windows can be open at
once. -/
theorem c3_singleton_idempotence :
    (∀ s wid, keyLookup s "browser" = some wid →
      openBrowser s = (setActiveWindow s wid, wid)
      ∧ ((openBrowser s).1).windows.length = s.windows.length)
    ∧ (∀ s wid, keyLookup s "studio" = some wid →
      openImageStudio s = (setActiveWindow s wid, wid)
      ∧ ((openImageStudio s).1).windows.length = s.windows.length)
    ∧ (∀ s wid, keyLookup s "explorer" = some wid →
      openFileExplorer s = (setActiveWindow s wid, wid)
      ∧ ((openFileExplorer s).1).windows.length = s.windows.length)
    ∧ (∀ s k wid, isSingleton k = true → keyLookup s (appStr k) = some wid →
      openAppViaIcon s k = (setActiveWindow s wid, some wid))
    ∧ (∀ s, ((openDoodlePad s none).1).windows.length = s.windows.length + 1) := by
  refine ⟨?_, ?_, ?_, ?_, ?_⟩
  · intro s wid h
    have he : openBrowser s = (setActiveWindow s wid, wid) := by
      unfold openBrowser
      rw [h]
    exact ⟨he, by rw [he]; exact windows_length_setActiveWindow s wid⟩
  · intro s wid h
    have he : openImageStudio s = (setActiveWindow s wid, wid) := by
      unfold openImageStudio
      rw [h]
    exact ⟨he, by rw [he]; exact windows_length_setActiveWindow s wid⟩
  · intro s wid h
    have he : openFileExplorer s = (setActiveWindow s wid, wid) := by
      unfold openFileExplorer
      rw [h]
    exact ⟨he, by rw [he]; exact windows_length_setActiveWindow s wid⟩
  · intro s k wid hk h
    cases k with
    | docs => simp [isSingleton] at hk
    | browser => unfold openAppViaIcon; dsimp only; rw [h]
    | doodle => unfold openAppViaIcon; dsimp only; rw [h]
    | studio => unfold openAppViaIcon; dsimp only; rw [h]
    | explorer => unfold openAppViaIcon; dsimp only; rw [h]
  · intro s
    unfold openDoodlePad openDoodlePadCreate
    dsimp only
    rw [windows_keySet, windows_length_createAppWindow]

theorem c3_witness :
    (openBrowser stSingletons = (setActiveWindow stSingletons 1, 1))
    ∧ (openAppViaIcon stSingletons .explorer
        = (setActiveWindow stSingletons 3, some 3))
    ∧ ((openDoodlePad baseState none).1).windows.length
        = baseState.windows.length + 1 :=
  ⟨(c3_singleton_idempotence.1 stSingletons 1 (by decide)).1,
   (c3_singleton_idempotence.2.2.2.1 stSingletons .explorer 3 (by decide) (by decide)),
   c3_singleton_idempotence.2.2.2.2 baseState⟩

theorem c3_counterexample :
    ((openDoodlePad (openDoodlePad baseState none).1 none).1.windows.filter
        (fun w => w.app == AppKind.doodle)).length = 2
    ∧ ((execAction stDoodleOpenImage (Action.openFile (some "mydoodle"))).1.windows.filter
        (fun w => w.app == AppKind.doodle)).length = 2 := by
  decide

end Workstation

namespace Workstation

theorem cf_updateWin (s : DState) (wid : Nat) (f : Window → Window) :
    (updateWin s wid f).clipboard = s.clipboard ∧ (updateWin s wid f).files = s.files :=
  ⟨rfl, rfl⟩

theorem cf_keySet (s : DState) (k : String) (wid : Nat) :
    (keySet s k wid).clipboard = s.clipboard ∧ (keySet s k wid).files = s.files := by
  unfold keySet
  split <;> exact ⟨rfl, rfl⟩

theorem cf_setActiveWindow (s : DState) (wid : Nat) :
    (setActiveWindow s wid).clipboard = s.clipboard
    ∧ (setActiveWindow s wid).files = s.files := by
  unfold setActiveWindow
  split <;> exact ⟨rfl, rfl⟩

theorem cf_popRand (s : DState) :
    ((popRand s).2).clipboard = s.clipboard ∧ ((popRand s).2).files = s.files := by
  unfold popRand
  split <;> exact ⟨rfl, rfl⟩

theorem cf_createAppWindow (s : DState) (t c : String) (app : AppKind) :
    ((createAppWindow s t c app).1).clipboard = s.clipboard
    ∧ ((createAppWindow s t c app).1).files = s.files := by
  unfold createAppWindow
  constructor
  · rw [(cf_setActiveWindow _ _).1]
    exact (cf_popRand s).1
  · rw [(cf_setActiveWindow _ _).2]
    exact (cf_popRand s).2

theorem cf_openDocumentWriterCreate (s : DState) (f : Option (String × String)) :
    ((openDocumentWriterCreate s f).1).clipboard = s.clipboard
    ∧ ((openDocumentWriterCreate s f).1).files = s.files := by
  unfold openDocumentWriterCreate
  cases f with
  | none =>
    exact ⟨by rw [(cf_keySet _ _ _).1, (cf_createAppWindow _ _ _ _).1],
           by rw [(cf_keySet _ _ _).2, (cf_createAppWindow _ _ _ _).2]⟩
  | some p =>
    exact ⟨by rw [(cf_updateWin _ _ _).1, (cf_keySet _ _ _).1, (cf_createAppWindow _ _ _ _).1],
           by rw [(cf_updateWin _ _ _).2, (cf_keySet _ _ _).2, (cf_createAppWindow _ _ _ _).2]⟩

theorem cf_openDocumentWriter (s : DState) (f : Option (String × String)) :
    ((openDocumentWriter s f).1).clipboard = s.clipboard
    ∧ ((openDocumentWriter s f).1).files = s.files := by
  unfold openDocumentWriter
  cases f with
  | none => exact cf_openDocumentWriterCreate s none
  | some p =>
    cases h : findBoundDocsWindow s p.1 with
    | some w => simpa [h] using cf_setActiveWindow s w.id
    | none => simpa [h] using cf_openDocumentWriterCreate s (some p)

theorem cf_openBrowser (s : DState) :
    ((openBrowser s).1).clipboard = s.clipboard
    ∧ ((openBrowser s).1).files = s.files := by
  unfold openBrowser
  cases h : keyLookup s "browser" with
  | some wid => exact cf_setActiveWindow s wid
  | none =>
    exact ⟨by rw [(cf_keySet _ _ _).1, (cf_createAppWindow _ _ _ _).1],
           by rw [(cf_keySet _ _ _).2, (cf_createAppWindow _ _ _ _).2]⟩

theorem cf_openDoodlePadCreate (s : DState) (f : Option (String × String)) :
    ((openDoodlePadCreate s f).1).clipboard = s.clipboard
    ∧ ((openDoodlePadCreate s f).1).files = s.files := by
  unfold openDoodlePadCreate
  cases f with
  | none =>
    exact ⟨by rw [(cf_keySet _ _ _).1, (cf_createAppWindow _ _ _ _).1],
           by rw [(cf_keySet _ _ _).2, (cf_createAppWindow _ _ _ _).2]⟩
  | some p =>
    dsimp only
    by_cases h : p.2 != ""
    · rw [if_pos h]
      exact ⟨by rw [(cf_updateWin _ _ _).1, (cf_keySet _ _ _).1, (cf_createAppWindow _ _ _ _).1],
             by rw [(cf_updateWin _ _ _).2, (cf_keySet _ _ _).2, (cf_createAppWindow _ _ _ _).2]⟩
    · rw [if_neg h]
      exact ⟨by rw [(cf_keySet _ _ _).1, (cf_createAppWindow _ _ _ _).1],
             by rw [(cf_keySet _ _ _).2, (cf_createAppWindow _ _ _ _).2]⟩

theorem cf_openDoodlePad (s : DState) (f : Option (String × String)) :
    ((openDoodlePad s f).1).clipboard = s.clipboard
    ∧ ((openDoodlePad s f).1).files = s.files := by
  unfold openDoodlePad
  cases f with
  | none => exact cf_openDoodlePadCreate s none
  | some p =>
    cases h : s.windows.find? (fun w => w.fileInfo == some (AppKind.doodle, p.1)) with
    | some w => simpa [h] using cf_setActiveWindow s w.id
    | none => simpa [h] using cf_openDoodlePadCreate s (some p)

theorem cf_openImageStudio (s : DState) :
    ((openImageStudio s).1).clipboard = s.clipboard
    ∧ ((openImageStudio s).1).files = s.files := by
  unfold openImageStudio
  cases h : keyLookup s "studio" with
  | some wid => exact cf_setActiveWindow s wid
  | none =>
    exact ⟨by rw [(cf_keySet _ _ _).1, (cf_createAppWindow _ _ _ _).1],
           by rw [(cf_keySet _ _ _).2, (cf_createAppWindow _ _ _ _).2]⟩

theorem cf_openImageStudioWithContent (s : DState) (n c : String) :
    ((openImageStudioWithContent s n c).1).clipboard = s.clipboard
    ∧ ((openImageStudioWithContent s n c).1).files = s.files := by
  unfold openImageStudioWithContent
  exact ⟨by rw [(cf_updateWin _ _ _).1, (cf_setActiveWindow _ _).1, (cf_openImageStudio _).1],
         by rw [(cf_updateWin _ _ _).2, (cf_setActiveWindow _ _).2, (cf_openImageStudio _).2]⟩

theorem cf_openImageViewer (s : DState) (n c : String) :
    (openImageViewer s n c).clipboard = s.clipboard
    ∧ (openImageViewer s n c).files = s.files := by
  unfold openImageViewer
  split
  case _ => exact cf_setActiveWindow _ _
  case _ =>
    split
    case _ => exact cf_openDoodlePad _ _
    case _ => exact cf_openImageStudioWithContent _ _ _

theorem cf_openFileExplorer (s : DState) :
    ((openFileExplorer s).1).clipboard = s.clipboard
    ∧ ((openFileExplorer s).1).files = s.files := by
  unfold openFileExplorer
  cases h : keyLookup s "explorer" with
  | some wid => exact cf_setActiveWindow s wid
  | none =>
    exact ⟨by rw [(cf_keySet _ _ _).1, (cf_createAppWindow _ _ _ _).1],
           by rw [(cf_keySet _ _ _).2, (cf_createAppWindow _ _ _ _).2]⟩

theorem cf_runIconClick (s : DState) (k : AppKind) :
    (runIconClick s k).clipboard = s.clipboard
    ∧ (runIconClick s k).files = s.files := by
  unfold runIconClick
  cases k
  case docs => exact cf_openDocumentWriter s none
  case doodle => exact cf_openDoodlePad s none
  case studio => exact cf_openImageStudio s
  case browser => exact cf_openBrowser s
  case explorer => exact cf_openFileExplorer s

theorem cf_clickStep (s : DState) :
    (clickStep s).clipboard = s.clipboard ∧ (clickStep s).files = s.files := by
  unfold clickStep
  dsimp only
  split
  case _ => exact ⟨rfl, rfl⟩
  case _ =>
    split
    case _ => exact cf_runIconClick _ _
    case _ => exact ⟨rfl, rfl⟩

theorem cf_openAppViaIcon (s : DState) (k : AppKind) :
    ((openAppViaIcon s k).1).clipboard = s.clipboard
    ∧ ((openAppViaIcon s k).1).files = s.files := by
  unfold openAppViaIcon
  cases k <;> dsimp only <;>
    repeat' first
      | exact ⟨rfl, rfl⟩
      | exact cf_setActiveWindow _ _
      | (constructor
         · rw [(cf_clickStep _).1]
         · rw [(cf_clickStep _).2])
      | split

end Workstation

namespace Workstation

theorem find?_id_map_update (l : List Window) (wid j : Nat) (f : Window → Window)
    (hid : ∀ v, (f v).id = v.id) :
    (l.map (fun w => if w.id == wid then f w else w)).find? (fun w => w.id == j)
      = (l.find? (fun w => w.id == j)).map
          (fun w => if w.id == wid then f w else w) := by
  rw [List.find?_map]
  have hpred : ((fun w : Window => w.id == j) ∘ fun w => if w.id == wid then f w else w)
      = fun w : Window => w.id == j := by
    funext w
    dsimp [Function.comp]
    by_cases h : w.id = wid
    · simp [h, hid]
    · simp [h]
  rw [hpred]

theorem findWin_updateWin (s : DState) (wid j : Nat) (f : Window → Window)
    (hid : ∀ v, (f v).id = v.id) :
    findWin (updateWin s wid f) j
      = (findWin s j).map (fun w => if w.id == wid then f w else w) :=
  find?_id_map_update s.windows wid j f hid

theorem findWin_setActiveWindow (s : DState) (wid j : Nat) :
    findWin (setActiveWindow s wid) j
      = if s.activeWindow = some wid then findWin s j
        else (findWin s j).map
          (fun w => if w.id == wid then { w with z := s.zCounter } else w) := by
  unfold setActiveWindow
  split
  case _ h => rfl
  case _ h =>
    exact find?_id_map_update s.windows wid j _ (fun v => rfl)

theorem findWin_id (s : DState) (wid : Nat) (w : Window)
    (h : findWin s wid = some w) : w.id = wid := by
  have := List.find?_some h
  simpa using this

theorem findWin_mem (s : DState) (wid : Nat) (w : Window)
    (h : findWin s wid = some w) : w ∈ s.windows :=
  List.mem_of_find?_eq_some h

theorem mem_updateWin_ne (s : DState) (wid : Nat) (f : Window → Window)
    (hid : ∀ v, (f v).id = v.id) :
    ∀ w2 ∈ (updateWin s wid f).windows, w2.id ≠ wid → w2 ∈ s.windows := by
  intro w2 hmem hne
  rcases List.mem_map.mp hmem with ⟨w3, hw3, hg⟩
  by_cases h : w3.id = wid
  · rw [if_pos (by simpa using h)] at hg
    rw [← hg] at hne
    rw [hid w3] at hne
    exact absurd h hne
  · rw [if_neg (by simpa using h)] at hg
    rw [← hg]
    exact hw3

theorem mem_setActiveWindow_ne (s : DState) (wid : Nat) :
    ∀ w2 ∈ (setActiveWindow s wid).windows, w2.id ≠ wid → w2 ∈ s.windows := by
  unfold setActiveWindow
  split
  case _ => intro w2 hmem _; exact hmem
  case _ =>
    intro w2 hmem hne
    exact mem_updateWin_ne { s with activeWindow := some wid } wid
      (fun w => { w with z := s.zCounter }) (fun v => rfl) w2 hmem hne

theorem findUnboundDocs_updateWin (s : DState) (wid : Nat) (f : Window → Window)
    (hid : ∀ v, (f v).id = v.id) (happ : ∀ v, (f v).app = v.app)
    (hfi : ∀ v, (f v).fileInfo = v.fileInfo) :
    findUnboundDocs (updateWin s wid f) = findUnboundDocs s := by
  unfold findUnboundDocs
  have hkeys : (updateWin s wid f).openWinKeys = s.openWinKeys := rfl
  rw [hkeys]
  have hfw : (fun p : String × Nat => findWin (updateWin s wid f) p.2)
      = fun p : String × Nat => (findWin s p.2).map
          (fun w => if w.id == wid then f w else w) := by
    funext p
    exact findWin_updateWin s wid p.2 f hid
  rw [hfw]
  have hfm : (s.openWinKeys.filterMap fun p =>
        (findWin s p.2).map (fun w => if w.id == wid then f w else w))
      = (s.openWinKeys.filterMap fun p => findWin s p.2).map
          (fun w => if w.id == wid then f w else w) := by
    rw [List.map_filterMap]
  rw [hfm, List.find?_map]
  have hpred : ((fun w => w.app == AppKind.docs && w.fileInfo == none)
        ∘ fun w => if w.id == wid then f w else w)
      = fun w => w.app == AppKind.docs && w.fileInfo == none := by
    funext w
    dsimp [Function.comp]
    by_cases h : w.id = wid
    · simp [h, happ, hfi]
    · simp [h]
  rw [hpred]
  cases hr : (s.openWinKeys.filterMap fun p => findWin s p.2).find?
      (fun w => w.app == AppKind.docs && w.fileInfo == none) with
  | none => rfl
  | some w =>
    simp only [Option.map_map, Option.map_some, Function.comp]
    by_cases h : w.id = wid
    · simp [h, hid]
    · simp [h]

theorem findUnboundDocs_setActiveWindow (s : DState) (wid : Nat) :
    findUnboundDocs (setActiveWindow s wid) = findUnboundDocs s := by
  unfold setActiveWindow
  split
  case _ => rfl
  case _ =>
    exact findUnboundDocs_updateWin { s with activeWindow := some wid } wid _
      (fun v => rfl) (fun v => rfl) (fun v => rfl)

end Workstation

namespace Workstation

theorem placeStep_noImage (s : DState)
    (h : s.clipboard = none ∨ ∀ c, s.clipboard = some c → c.ctype ≠ "image") :
    placeImageInDocStep s
      = addMessage s "There's no image on the clipboard to place." := by
  unfold placeImageInDocStep
  cases hc : s.clipboard with
  | none => rfl
  | some c =>
    have hcty : c.ctype ≠ "image" := by
      cases h with
      | inl h0 => rw [h0] at hc; cases hc
      | inr h0 => exact h0 c hc
    dsimp only
    rw [if_neg (by simpa using hcty)]

theorem placeStep_eq_existing (s : DState) (c : ClipItem) (wid : Nat)
    (hc : s.clipboard = some c) (hcty : c.ctype = "image")
    (hu : findUnboundDocs s = some wid) :
    placeImageInDocStep s
      = updateWin (setActiveWindow s wid) wid
          (fun w => { w with content := w.content ++ imgTag c.data }) := by
  unfold placeImageInDocStep
  rw [hc]
  dsimp only
  rw [if_pos (by simp [hcty]), hu]

theorem placeStep_eq_onDemand (s : DState) (c : ClipItem) (s1 : DState) (wid : Nat)
    (hc : s.clipboard = some c) (hcty : c.ctype = "image")
    (hu : findUnboundDocs s = none)
    (ho : openAppViaIcon s .docs = (s1, some wid)) :
    placeImageInDocStep s
      = updateWin (setActiveWindow s1 wid) wid
          (fun w => { w with content := w.content ++ imgTag c.data }) := by
  unfold placeImageInDocStep
  rw [hc]
  dsimp only
  rw [if_pos (by simp [hcty]), hu, ho]

theorem place_existing_props (s : DState) (c : ClipItem) (wid : Nat) (w : Window)
    (hc : s.clipboard = some c) (hcty : c.ctype = "image")
    (hu : findUnboundDocs s = some wid) (hw : findWin s wid = some w) :
    (placeImageInDocStep s).clipboard = some c
    ∧ findUnboundDocs (placeImageInDocStep s) = some wid
    ∧ (placeImageInDocStep s).windows.length = s.windows.length
    ∧ (∃ w2, findWin (placeImageInDocStep s) wid = some w2
        ∧ w2.content = w.content ++ imgTag c.data
        ∧ w2.left = w.left ∧ w2.top = w.top ∧ w2.app = w.app
        ∧ w2.fileInfo = w.fileInfo) := by
  have heq := placeStep_eq_existing s c wid hc hcty hu
  have hid0 : w.id = wid := findWin_id s wid w hw
  refine ⟨?_, ?_, ?_, ?_⟩
  · rw [heq, (cf_updateWin _ _ _).1, (cf_setActiveWindow _ _).1, hc]
  · rw [heq, findUnboundDocs_updateWin (setActiveWindow s wid) wid
      (fun w => { w with content := w.content ++ imgTag c.data })
      (fun v => rfl) (fun v => rfl) (fun v => rfl),
      findUnboundDocs_setActiveWindow, hu]
  · rw [heq, windows_length_updateWin, windows_length_setActiveWindow]
  · rw [heq, findWin_updateWin (setActiveWindow s wid) wid wid
      (fun w => { w with content := w.content ++ imgTag c.data }) (fun v => rfl),
      findWin_setActiveWindow]
    by_cases ha : s.activeWindow = some wid
    · rw [if_pos ha, hw]
      refine ⟨{ w with content := w.content ++ imgTag c.data }, ?_, rfl, rfl, rfl, rfl, rfl⟩
      simp [hid0]
    · rw [if_neg ha, hw]
      refine ⟨{ w with z := s.zCounter, content := w.content ++ imgTag c.data },
        ?_, rfl, rfl, rfl, rfl, rfl⟩
      simp [hid0]

/-- C4 (confirmed): `place_image_in_doc` with an empty clipboard or a
non-image entry is exactly one chat message on an otherwise unchanged state —
no window is created or mutated.  With an image on the clipboard and the
document target resolvable (an unbound document window, or one opened on
demand via the icon), exactly one image reference is appended to that window's
body, every other window is untouched, and the clipboard entry is kept, so a
second placement appends a second reference. -/
theorem c4_place_image :
    (∀ s, (s.clipboard = none ∨ ∀ c, s.clipboard = some c → c.ctype ≠ "image") →
      placeImageInDocStep s
        = addMessage s "There's no image on the clipboard to place.")
    ∧ (∀ s c wid w, s.clipboard = some c → c.ctype = "image" →
        findUnboundDocs s = some wid → findWin s wid = some w →
        (placeImageInDocStep s).clipboard = s.clipboard
        ∧ (placeImageInDocStep s).windows.length = s.windows.length
        ∧ (∃ w2, findWin (placeImageInDocStep s) wid = some w2
            ∧ w2.content = w.content ++ imgTag c.data
            ∧ w2.left = w.left ∧ w2.top = w.top ∧ w2.app = w.app
            ∧ w2.fileInfo = w.fileInfo)
        ∧ (∀ w2 ∈ (placeImageInDocStep s).windows, w2.id ≠ wid → w2 ∈ s.windows))
    ∧ (∀ s c s1 wid w1, s.clipboard = some c → c.ctype = "image" →
        findUnboundDocs s = none → openAppViaIcon s .docs = (s1, some wid) →
        findWin s1 wid = some w1 →
        (placeImageInDocStep s).clipboard = s.clipboard
        ∧ (∃ w2, findWin (placeImageInDocStep s) wid = some w2
            ∧ w2.content = w1.content ++ imgTag c.data))
    ∧ (∀ s c wid w, s.clipboard = some c → c.ctype = "image" →
        findUnboundDocs s = some wid → findWin s wid = some w →
        (∃ w3, findWin (placeImageInDocStep (placeImageInDocStep s)) wid = some w3
            ∧ w3.content = (w.content ++ imgTag c.data) ++ imgTag c.data)) := by
  refine ⟨placeStep_noImage, ?_, ?_, ?_⟩
  · intro s c wid w hc hcty hu hw
    have hp := place_existing_props s c wid w hc hcty hu hw
    refine ⟨by rw [hp.1, hc], hp.2.2.1, hp.2.2.2, ?_⟩
    intro w2 hmem hne
    rw [placeStep_eq_existing s c wid hc hcty hu] at hmem
    have h1 := mem_updateWin_ne (setActiveWindow s wid) wid
      (fun w => { w with content := w.content ++ imgTag c.data }) (fun v => rfl) w2 hmem hne
    exact mem_setActiveWindow_ne s wid w2 h1 hne
  · intro s c s1 wid w1 hc hcty hu ho hw1
    have heq := placeStep_eq_onDemand s c s1 wid hc hcty hu ho
    have hid1 : w1.id = wid := findWin_id s1 wid w1 hw1
    have hs1c : s1.clipboard = s.clipboard := by
      have := (cf_openAppViaIcon s .docs).1
      rw [ho] at this
      exact this
    refine ⟨?_, ?_⟩
    · rw [heq, (cf_updateWin _ _ _).1, (cf_setActiveWindow _ _).1, hs1c]
    · rw [heq, findWin_updateWin (setActiveWindow s1 wid) wid wid
        (fun w => { w with content := w.content ++ imgTag c.data }) (fun v => rfl),
        findWin_setActiveWindow]
      by_cases ha : s1.activeWindow = some wid
      · rw [if_pos ha, hw1]
        refine ⟨{ w1 with content := w1.content ++ imgTag c.data }, ?_, rfl⟩
        simp [hid1]
      · rw [if_neg ha, hw1]
        refine ⟨{ w1 with z := s1.zCounter, content := w1.content ++ imgTag c.data }, ?_, rfl⟩
        simp [hid1]
  · intro s c wid w hc hcty hu hw
    have hp := place_existing_props s c wid w hc hcty hu hw
    rcases hp.2.2.2 with ⟨w2, hw2, hw2c, _, _, _, _⟩
    have hp2 := place_existing_props (placeImageInDocStep s) c wid w2 hp.1 hcty hp.2.1 hw2
    rcases hp2.2.2.2 with ⟨w3, hw3, hw3c, _, _, _, _⟩
    exact ⟨w3, hw3, by rw [hw3c, hw2c]⟩

theorem c4_witness :
    (placeImageInDocStep baseState
      = addMessage baseState "There's no image on the clipboard to place.")
    ∧ ((placeImageInDocStep stDocClip).clipboard = stDocClip.clipboard
        ∧ (placeImageInDocStep stDocClip).windows.length = stDocClip.windows.length)
    ∧ ((placeImageInDocStep stClipOnly).clipboard = stClipOnly.clipboard) :=
  ⟨c4_place_image.1 baseState (Or.inl rfl),
   ⟨(c4_place_image.2.1 stDocClip ⟨"image", "IMGDATA"⟩ 1 (mkWin 1 .docs)
       (by decide) (by decide) (by decide) (by decide)).1,
    (c4_place_image.2.1 stDocClip ⟨"image", "IMGDATA"⟩ 1 (mkWin 1 .docs)
       (by decide) (by decide) (by decide) (by decide)).2.1⟩,
   (c4_place_image.2.2.1 stClipOnly ⟨"image", "IMGDATA"⟩
       (openAppViaIcon stClipOnly .docs).1 1
       { mkWin 1 .docs with title := "📝 New Document", left := 50, top := 50, z := 11 }
       (by decide) (by decide) (by decide) (by decide) (by decide)).1⟩

end Workstation

namespace Workstation

theorem fmLookup_fmErase_self (m : FileMap) (k : String) :
    fmLookup (fmErase m k) k = none := by
  induction m with
  | nil => rfl
  | cons p rest ih =>
    by_cases h : p.1 = k
    · simpa [fmErase, List.filter_cons, h] using ih
    · simpa [fmErase, List.filter_cons, h, fmLookup] using ih

theorem files_addMessage (s : DState) (m : String) :
    (addMessage s m).files = s.files := rfl

/-- C10 (confirmed): `delete_file` applies the documents-then-images lookup
order, so for a name present in both namespaces it removes only the documents
entry and the images entry survives unchanged — a single `delete_file` never
deletes from both namespaces. -/
theorem c10_delete_documents_first (s : DState) (n : String) (hn : n ≠ "")
    (d i : FileData) (hd : fmLookup s.files.documents n = some d)
    (hi : fmLookup s.files.images n = some i) :
    fmLookup ((execAction s (Action.deleteFile (some n))).1).files.documents n = none
    ∧ fmLookup ((execAction s (Action.deleteFile (some n))).1).files.images n = some i := by
  simp only [execAction]
  unfold deleteFileStep
  dsimp only
  rw [if_pos (by simpa using hn)]
  unfold getFiles
  rw [hd]
  unfold deleteFile
  rw [if_pos (by decide)]
  rw [files_addMessage]
  exact ⟨fmLookup_fmErase_self _ n, hi⟩

theorem c10_witness :
    fmLookup ((execAction stBothNamespaces
        (Action.deleteFile (some "x"))).1).files.documents "x" = none
    ∧ fmLookup ((execAction stBothNamespaces
        (Action.deleteFile (some "x"))).1).files.images "x" = some ⟨"B", 0⟩ :=
  c10_delete_documents_first stBothNamespaces "x" (by decide) ⟨"A", 0⟩ ⟨"B", 0⟩
    (by decide) (by decide)

end Workstation

namespace Workstation

theorem deleteFileStep_docs (s : DState) (n : String) (hn : (n != "") = true)
    (d : FileData) (hd : fmLookup s.files.documents n = some d) :
    deleteFileStep s (some n) = deleteFile s "documents" n := by
  unfold deleteFileStep
  dsimp only
  rw [if_pos hn]
  unfold getFiles
  rw [hd]

theorem deleteFileStep_images (s : DState) (n : String) (hn : (n != "") = true)
    (hd : fmLookup s.files.documents n = none)
    (i : FileData) (hi : fmLookup s.files.images n = some i) :
    deleteFileStep s (some n) = deleteFile s "images" n := by
  unfold deleteFileStep
  dsimp only
  rw [if_pos hn]
  unfold getFiles
  rw [hd, hi]

theorem deleteFileStep_missing (s : DState) (n : String) (hn : (n != "") = true)
    (hd : fmLookup s.files.documents n = none)
    (hi : fmLookup s.files.images n = none) :
    deleteFileStep s (some n) = addMessage s ("File not found: \"" ++ n ++ "\"") := by
  unfold deleteFileStep
  dsimp only
  rw [if_pos hn]
  unfold getFiles
  rw [hd, hi]

theorem openFileStep_missing (s : DState) (n : String) (hn : (n != "") = true)
    (hd : fmLookup s.files.documents n = none)
    (hi : fmLookup s.files.images n = none) :
    openFileStep s (some n) = addMessage s ("File not found: \"" ++ n ++ "\"") := by
  unfold openFileStep
  dsimp only
  rw [if_pos hn]
  unfold getFiles
  rw [hd, hi]

theorem files_deleteFile_documents (s : DState) (n : String) :
    (deleteFile s "documents" n).files.documents = fmErase s.files.documents n
    ∧ (deleteFile s "documents" n).files.images = s.files.images := by
  unfold deleteFile
  rw [if_pos (by decide)]
  exact ⟨rfl, rfl⟩

theorem files_deleteFile_images (s : DState) (n : String) :
    (deleteFile s "images" n).files.documents = s.files.documents
    ∧ (deleteFile s "images" n).files.images = fmErase s.files.images n := by
  unfold deleteFile
  rw [if_neg (by decide), if_pos (by decide)]
  exact ⟨rfl, rfl⟩

/-- C6 (corrected): the claim's universal "delete then open reports not found"
fails for a name present in both namespaces (delete removes only the documents
entry, so the subsequent open finds and opens the image); it holds for every
name present in at most one namespace.  The other two parts are as claimed:
`delete_file` on a name in neither namespace reports "File not found" and
nothing else, and the backend DELETE route answers 400 for an invalid type,
404 for a missing file, and 200 exactly after removing an existing one. -/
theorem c6_delete_then_open :
    (∀ s n, n ≠ "" →
      (fmLookup s.files.documents n = none ∨ fmLookup s.files.images n = none) →
      ((executeActionSequence s
          [Action.deleteFile (some n), Action.openFile (some n)]).1).chat.getLast?
        = some ("File not found: \"" ++ n ++ "\""))
    ∧ (∀ s n, n ≠ "" → fmLookup s.files.documents n = none →
        fmLookup s.files.images n = none →
        execAction s (Action.deleteFile (some n))
          = (addMessage s ("File not found: \"" ++ n ++ "\""), none))
    ∧ (∀ files t n, t ≠ "documents" → t ≠ "images" →
        Server.deleteFileRoute files t n = (400, files))
    ∧ (∀ files n, fmLookup (FilesDB.documents files) n = none →
        Server.deleteFileRoute files "documents" n = (404, files))
    ∧ (∀ files n, fmLookup (FilesDB.images files) n = none →
        Server.deleteFileRoute files "images" n = (404, files))
    ∧ (∀ files n d, fmLookup (FilesDB.documents files) n = some d →
        Server.deleteFileRoute files "documents" n
          = (200, { files with documents := fmErase (FilesDB.documents files) n })
        ∧ fmLookup (fmErase (FilesDB.documents files) n) n = none)
    ∧ (∀ files n i, fmLookup (FilesDB.images files) n = some i →
        Server.deleteFileRoute files "images" n
          = (200, { files with images := fmErase (FilesDB.images files) n })
        ∧ fmLookup (fmErase (FilesDB.images files) n) n = none) := by
  refine ⟨?_, ?_, ?_, ?_, ?_, ?_, ?_⟩
  · intro s n hn hone
    have hnb : (n != "") = true := by simpa using hn
    have hseq : (executeActionSequence s
        [Action.deleteFile (some n), Action.openFile (some n)]).1
        = openFileStep (deleteFileStep s (some n)) (some n) := rfl
    rw [hseq]
    cases hd : fmLookup s.files.documents n with
    | some d =>
      have hi : fmLookup s.files.images n = none := by
        cases hone with
        | inl h0 => rw [h0] at hd; cases hd
        | inr h0 => exact h0
      rw [deleteFileStep_docs s n hnb d hd]
      rw [openFileStep_missing _ n hnb
        (by rw [(files_deleteFile_documents s n).1]; exact fmLookup_fmErase_self _ n)
        (by rw [(files_deleteFile_documents s n).2]; exact hi)]
      rw [chat_addMessage]
      exact List.getLast?_concat _
    | none =>
      cases hi : fmLookup s.files.images n with
      | some i =>
        rw [deleteFileStep_images s n hnb hd i hi]
        rw [openFileStep_missing _ n hnb
          (by rw [(files_deleteFile_images s n).1]; exact hd)
          (by rw [(files_deleteFile_images s n).2]; exact fmLookup_fmErase_self _ n)]
        rw [chat_addMessage]
        exact List.getLast?_concat _
      | none =>
        rw [deleteFileStep_missing s n hnb hd hi]
        rw [openFileStep_missing _ n hnb
          (by rw [files_addMessage]; exact hd)
          (by rw [files_addMessage]; exact hi)]
        rw [chat_addMessage]
        exact List.getLast?_concat _
  · intro s n hn hd hi
    have hnb : (n != "") = true := by simpa using hn
    simp only [execAction]
    rw [deleteFileStep_missing s n hnb hd hi]
  · intro files t n h1 h2
    unfold Server.deleteFileRoute
    rw [if_pos (by simp [h1, h2])]
  · intro files n h
    unfold Server.deleteFileRoute
    rw [if_neg (by simp)]
    dsimp only
    rw [if_pos (by decide)]
    rw [h]
  · intro files n h
    unfold Server.deleteFileRoute
    rw [if_neg (by simp)]
    dsimp only
    rw [if_neg (by decide)]
    rw [h]
  · intro files n d h
    unfold Server.deleteFileRoute
    rw [if_neg (by simp)]
    dsimp only
    rw [if_pos (by decide), h]
    exact ⟨by rw [if_pos (by decide)], fmLookup_fmErase_self _ n⟩
  · intro files n i h
    unfold Server.deleteFileRoute
    rw [if_neg (by simp)]
    dsimp only
    rw [if_neg (by decide), h]
    exact ⟨by rw [if_neg (by decide)], fmLookup_fmErase_self _ n⟩

theorem c6_witness :
    (((executeActionSequence stDocsOnlyFile
        [Action.deleteFile (some "x"), Action.openFile (some "x")]).1).chat.getLast?
      = some "File not found: \"x\"")
    ∧ (execAction baseState (Action.deleteFile (some "y"))
        = (addMessage baseState "File not found: \"y\"", none))
    ∧ (Server.deleteFileRoute ⟨[], []⟩ "movies" "x" = (400, ⟨[], []⟩))
    ∧ (Server.deleteFileRoute ⟨[], []⟩ "documents" "x" = (404, ⟨[], []⟩))
    ∧ (Server.deleteFileRoute ⟨[("x", ⟨"A", 0⟩)], []⟩ "documents" "x"
        = (200, ⟨[], []⟩)) :=
  ⟨c6_delete_then_open.1 stDocsOnlyFile "x" (by decide) (Or.inr (by decide)),
   c6_delete_then_open.2.1 baseState "y" (by decide) (by decide) (by decide),
   c6_delete_then_open.2.2.1 ⟨[], []⟩ "movies" "x" (by decide) (by decide),
   c6_delete_then_open.2.2.2.1 ⟨[], []⟩ "x" (by decide),
   by
     have := (c6_delete_then_open.2.2.2.2.2.1 ⟨[("x", ⟨"A", 0⟩)], []⟩ "x" ⟨"A", 0⟩
       (by decide)).1
     simpa using this⟩

theorem c6_counterexample :
    ((executeActionSequence stBothNamespaces
        [Action.deleteFile (some "x"), Action.openFile (some "x")]).1).chat
      = ["Deleted document: \"x\""]
    ∧ (((executeActionSequence stBothNamespaces
        [Action.deleteFile (some "x"), Action.openFile (some "x")]).1).windows.filter
          (fun w => w.app == AppKind.studio)).length = 1 := by
  decide

end Workstation

namespace Workstation

theorem active_setActiveWindow (s : DState) (wid : Nat) :
    (setActiveWindow s wid).activeWindow = some wid := by
  unfold setActiveWindow
  split
  case _ h => exact h
  case _ h => rfl

theorem active_keySet (s : DState) (k : String) (wid : Nat) :
    (keySet s k wid).activeWindow = s.activeWindow := by
  unfold keySet
  split <;> rfl

theorem active_updateWin (s : DState) (wid : Nat) (f : Window → Window) :
    (updateWin s wid f).activeWindow = s.activeWindow := rfl

theorem snd_createAppWindow (s : DState) (t c : String) (app : AppKind) :
    (createAppWindow s t c app).2 = s.nextId := by
  unfold createAppWindow
  dsimp only

theorem active_createAppWindow (s : DState) (t c : String) (app : AppKind) :
    ((createAppWindow s t c app).1).activeWindow = some s.nextId := by
  unfold createAppWindow
  dsimp only
  exact active_setActiveWindow _ _

theorem findWin_of_mem_nodup (s : DState) (hids : WFIds s) (w : Window)
    (hw : w ∈ s.windows) : findWin s w.id = some w := by
  cases hf : findWin s w.id with
  | none =>
    exfalso
    unfold findWin at hf
    rw [List.find?_eq_none] at hf
    exact hf w hw (by simp)
  | some x =>
    have hx : x ∈ s.windows := findWin_mem s w.id x hf
    have hxi : x.id = w.id := findWin_id s w.id x hf
    rw [eq_of_mem_id_nodup hids hx hw hxi] at hf ⊢

theorem findWin_append_fresh (s : DState) (hfresh : WFFresh s) (l2 : List Window) :
    (s.windows ++ l2).find? (fun v => v.id == s.nextId)
      = l2.find? (fun v => v.id == s.nextId) := by
  rw [List.find?_append]
  have h1 : s.windows.find? (fun v => v.id == s.nextId) = none := by
    rw [List.find?_eq_none]
    intro x hx
    have := hfresh x hx
    simp only [beq_iff_eq]
    omega
  rw [h1]
  rfl

theorem findWin_createAppWindow (s : DState) (t c : String) (app : AppKind)
    (hfresh : WFFresh s) :
    ∃ w2, findWin ((createAppWindow s t c app).1) s.nextId = some w2
      ∧ w2.app = app ∧ w2.content = c ∧ w2.fileInfo = none ∧ w2.id = s.nextId := by
  unfold createAppWindow
  dsimp only
  rw [findWin_setActiveWindow]
  split
  case _ h =>
    unfold findWin
    dsimp only
    rw [show (popRand s).2.windows = s.windows from windows_popRand s] at *
    rw [findWin_append_fresh s hfresh]
    simp only [List.find?_cons, beq_self_eq_true]
    exact ⟨_, rfl, rfl, rfl, rfl, rfl⟩
  case _ h =>
    unfold findWin
    dsimp only
    rw [show (popRand s).2.windows = s.windows from windows_popRand s] at *
    rw [findWin_append_fresh s hfresh]
    simp only [List.find?_cons, beq_self_eq_true, Option.map_some]
    refine ⟨_, rfl, ?_, ?_, ?_, ?_⟩ <;> simp

end Workstation

namespace Workstation

theorem filterlen_map_app_preserving (l : List Window) (g : Window → Window)
    (h : ∀ w, (g w).app = w.app) (p : AppKind → Bool) :
    ((l.map g).filter (fun w => p w.app)).length
      = (l.filter (fun w => p w.app)).length := by
  rw [List.filter_map, List.length_map]
  have hpred : ((fun w : Window => p w.app) ∘ g) = fun w : Window => p w.app := by
    funext w
    dsimp [Function.comp]
    rw [h]
  rw [hpred]

theorem filterlen_setActiveWindow (s : DState) (wid : Nat) (p : AppKind → Bool) :
    ((setActiveWindow s wid).windows.filter (fun w => p w.app)).length
      = (s.windows.filter (fun w => p w.app)).length := by
  unfold setActiveWindow
  split
  case _ => rfl
  case _ =>
    exact filterlen_map_app_preserving s.windows
      (fun w => if w.id == wid then { w with z := s.zCounter } else w)
      (fun w => by dsimp; split <;> rfl) p

theorem filterlen_updateWin (s : DState) (wid : Nat) (f : Window → Window)
    (happ : ∀ v, (f v).app = v.app) (p : AppKind → Bool) :
    ((updateWin s wid f).windows.filter (fun w => p w.app)).length
      = (s.windows.filter (fun w => p w.app)).length :=
  filterlen_map_app_preserving s.windows
    (fun w => if w.id == wid then f w else w)
    (fun w => by dsimp; split; exact happ w; rfl) p

theorem filterlen_createAppWindow (s : DState) (t c : String) (app : AppKind)
    (p : AppKind → Bool) :
    (((createAppWindow s t c app).1).windows.filter (fun w => p w.app)).length
      = (s.windows.filter (fun w => p w.app)).length
        + (if p app then 1 else 0) := by
  unfold createAppWindow
  dsimp only
  rw [filterlen_setActiveWindow]
  dsimp only
  rw [show (popRand s).2.windows = s.windows from windows_popRand s]
  rw [List.filter_append, List.length_append]
  congr 1
  by_cases hp : p app = true
  · simp [List.filter, hp]
  · simp [List.filter, hp]

theorem focus_props (s : DState) (w : Window) (hids : WFIds s)
    (hw : w ∈ s.windows) :
    (setActiveWindow s w.id).activeWindow = some w.id
    ∧ (∃ w2, findWin (setActiveWindow s w.id) w.id = some w2 ∧ w2.app = w.app
        ∧ w2.content = w.content ∧ w2.imgSrc = w.imgSrc ∧ w2.fileInfo = w.fileInfo) := by
  refine ⟨active_setActiveWindow s w.id, ?_⟩
  have hfw := findWin_of_mem_nodup s hids w hw
  rw [findWin_setActiveWindow]
  split
  case _ =>
    rw [hfw]
    exact ⟨w, rfl, rfl, rfl, rfl, rfl⟩
  case _ =>
    rw [hfw, Option.map_some']
    simp only [beq_self_eq_true, if_true]
    refine ⟨_, rfl, ?_, ?_, ?_, ?_⟩ <;> rfl

end Workstation

namespace Workstation

theorem findWin_keySet (s : DState) (k : String) (wid j : Nat) :
    findWin (keySet s k wid) j = findWin s j := by
  unfold keySet
  split <;> rfl

theorem filterlen_keySet (s : DState) (k : String) (wid : Nat) (p : AppKind → Bool) :
    ((keySet s k wid).windows.filter (fun w => p w.app)).length
      = (s.windows.filter (fun w => p w.app)).length := by
  rw [windows_keySet]

theorem openDocumentWriterCreate_props (s : DState) (file : Option (String × String))
    (hfresh : WFFresh s) :
    ((openDocumentWriterCreate s file).1).activeWindow = some s.nextId
    ∧ (∃ w2, findWin (openDocumentWriterCreate s file).1 s.nextId = some w2
        ∧ w2.app = .docs)
    ∧ ∀ p : AppKind → Bool, p .docs = false →
        (((openDocumentWriterCreate s file).1).windows.filter
            (fun w => p w.app)).length
          = (s.windows.filter (fun w => p w.app)).length := by
  unfold openDocumentWriterCreate
  cases file with
  | none =>
    dsimp only
    refine ⟨?_, ?_, ?_⟩
    · rw [active_keySet, active_createAppWindow]
    · rcases findWin_createAppWindow s "📝 New Document" "" .docs hfresh
        with ⟨w2, hw2, happ, _, _, _⟩
      exact ⟨w2, by rw [findWin_keySet]; exact hw2, happ⟩
    · intro p hp
      rw [filterlen_keySet, filterlen_createAppWindow, hp]
      simp
  | some pr =>
    dsimp only
    refine ⟨?_, ?_, ?_⟩
    · rw [active_updateWin, active_keySet, active_createAppWindow]
    · rcases findWin_createAppWindow s ("📝 " ++ pr.1) pr.2 .docs hfresh
        with ⟨w2, hw2, happ, _, _, hid2⟩
      rw [findWin_updateWin _ _ _
        (fun w => { w with fileInfo := some (AppKind.docs, pr.1) }) (fun v => rfl),
        findWin_keySet, hw2, Option.map_some']
      refine ⟨_, rfl, ?_⟩
      rw [snd_createAppWindow, hid2]
      simp only [beq_self_eq_true, if_true]
      exact happ
    · intro p hp
      rw [filterlen_updateWin _ _
        (fun w => { w with fileInfo := some (AppKind.docs, pr.1) }) (fun v => rfl),
        filterlen_keySet, filterlen_createAppWindow, hp]
      simp

theorem openDocumentWriter_props (s : DState) (n content : String)
    (hids : WFIds s) (hb : WFBindings s) (hfresh : WFFresh s) :
    (∃ wid w2, ((openDocumentWriter s (some (n, content))).1).activeWindow = some wid
      ∧ findWin (openDocumentWriter s (some (n, content))).1 wid = some w2
      ∧ w2.app = .docs)
    ∧ ∀ p : AppKind → Bool, p .docs = false →
        (((openDocumentWriter s (some (n, content))).1).windows.filter
            (fun w => p w.app)).length
          = (s.windows.filter (fun w => p w.app)).length := by
  unfold openDocumentWriter
  dsimp only
  cases hf : findBoundDocsWindow s n with
  | some w =>
    have hw : w ∈ s.windows := List.mem_of_find?_eq_some hf
    have hfi : w.fileInfo = some (AppKind.docs, n) := by
      have := List.find?_some hf
      simpa using this
    have happ : w.app = .docs := hb w hw .docs n hfi
    dsimp only
    constructor
    · rcases (focus_props s w hids hw).2 with ⟨w2, hw2, h2app, _, _, _⟩
      exact ⟨w.id, w2, (focus_props s w hids hw).1, hw2, by rw [h2app, happ]⟩
    · intro p hp
      exact filterlen_setActiveWindow s w.id p
  | none =>
    dsimp only
    have h := openDocumentWriterCreate_props s (some (n, content)) hfresh
    exact ⟨⟨s.nextId, h.2.1.choose, h.1, h.2.1.choose_spec.1, h.2.1.choose_spec.2⟩,
      h.2.2⟩

theorem openDoodlePadCreate_props (s : DState) (file : Option (String × String))
    (hfresh : WFFresh s) :
    ((openDoodlePadCreate s file).1).activeWindow = some s.nextId
    ∧ (∃ w2, findWin (openDoodlePadCreate s file).1 s.nextId = some w2
        ∧ w2.app = .doodle) := by
  unfold openDoodlePadCreate
  cases file with
  | none =>
    dsimp only
    refine ⟨by rw [active_keySet, active_createAppWindow], ?_⟩
    rcases findWin_createAppWindow s "🎨 Doodle Pad" "" .doodle hfresh
      with ⟨w2, hw2, happ, _, _, _⟩
    exact ⟨w2, by rw [findWin_keySet]; exact hw2, happ⟩
  | some pr =>
    dsimp only
    by_cases hc : pr.2 != ""
    · rw [if_pos hc]
      refine ⟨by rw [active_updateWin, active_keySet, active_createAppWindow], ?_⟩
      rcases findWin_createAppWindow s ("🎨 " ++ pr.1) "" .doodle hfresh
        with ⟨w2, hw2, happ, _, _, hid2⟩
      rw [findWin_updateWin _ _ _
        (fun w => { w with content := pr.2, fileInfo := some (AppKind.doodle, pr.1) })
        (fun v => rfl), findWin_keySet, hw2, Option.map_some']
      refine ⟨_, rfl, ?_⟩
      rw [snd_createAppWindow, hid2]
      simp only [beq_self_eq_true, if_true]
      exact happ
    · rw [if_neg hc]
      refine ⟨by rw [active_keySet, active_createAppWindow], ?_⟩
      rcases findWin_createAppWindow s ("🎨 " ++ pr.1) "" .doodle hfresh
        with ⟨w2, hw2, happ, _, _, _⟩
      exact ⟨w2, by rw [findWin_keySet]; exact hw2, happ⟩

theorem keyLookup_mem (s : DState) (k : String) (wid : Nat)
    (h : keyLookup s k = some wid) : (k, wid) ∈ s.openWinKeys := by
  unfold keyLookup at h
  cases hf : s.openWinKeys.find? (fun p => p.1 == k) with
  | none => rw [hf] at h; cases h
  | some p =>
    rw [hf] at h
    have hp1 : p.1 = k := by simpa using List.find?_some hf
    have hmem := List.mem_of_find?_eq_some hf
    have hp2 : p.2 = wid := by simpa using h
    rw [← hp1, ← hp2]
    exact hmem

theorem openImageStudio_props (s : DState) (hids : WFIds s) (hkeys : WFKeys s)
    (hfresh : WFFresh s) :
    ∃ wid, ((openImageStudio s).1).activeWindow = some wid
      ∧ (openImageStudio s).2 = wid
      ∧ ∃ w2, findWin (openImageStudio s).1 wid = some w2 ∧ w2.app = .studio := by
  unfold openImageStudio
  cases hk : keyLookup s "studio" with
  | some wid =>
    dsimp only
    rcases hkeys ("studio", wid) (keyLookup_mem s "studio" wid hk) with ⟨w, hfw, hws⟩
    have happ : w.app = .studio := hws.2.2.1 rfl
    have hwid : w.id = wid := findWin_id s wid w hfw
    rcases (focus_props s w hids (findWin_mem s wid w hfw)).2 with
      ⟨w2, hw2, h2app, _, _, _⟩
    refine ⟨wid, ?_, rfl, ?_⟩
    · rw [← hwid]
      exact (focus_props s w hids (findWin_mem s wid w hfw)).1
    · rw [← hwid]
      exact ⟨w2, hw2, by rw [h2app, happ]⟩
  | none =>
    dsimp only
    refine ⟨s.nextId, by rw [active_keySet, active_createAppWindow],
      by rw [snd_createAppWindow], ?_⟩
    rcases findWin_createAppWindow s "🖼️ Image Studio" "" .studio hfresh
      with ⟨w2, hw2, happ, _, _, _⟩
    exact ⟨w2, by rw [findWin_keySet]; exact hw2, happ⟩

theorem openImageStudioWithContent_props (s : DState) (n c : String)
    (hids : WFIds s) (hkeys : WFKeys s) (hfresh : WFFresh s) :
    ∃ wid w2, ((openImageStudioWithContent s n c).1).activeWindow = some wid
      ∧ findWin (openImageStudioWithContent s n c).1 wid = some w2
      ∧ w2.app = .studio := by
  unfold openImageStudioWithContent
  dsimp only
  rcases openImageStudio_props s hids hkeys hfresh with ⟨wid, hact, hsnd, w2, hw2, happ⟩
  rw [hsnd]
  have hwid2 : w2.id = wid := findWin_id _ wid w2 hw2
  refine ⟨wid, ?_⟩
  rw [findWin_updateWin _ _ _ (fun w => { w with imgSrc := some c, fileInfo := some (AppKind.studio, n), title := "🖼️ " ++ n }) (fun v => rfl), findWin_setActiveWindow]
  by_cases ha : ((openImageStudio s).1).activeWindow = some wid
  · rw [if_pos ha, hw2, Option.map_some']
    rw [hwid2]
    simp only [beq_self_eq_true, if_true]
    exact ⟨_, by rw [active_updateWin, active_setActiveWindow], rfl, happ⟩
  · rw [if_neg ha, hw2, Option.map_some', Option.map_some']
    rw [hwid2]
    simp only [beq_self_eq_true, if_true]
    exact ⟨_, by rw [active_updateWin, active_setActiveWindow], rfl, happ⟩

theorem openImageViewer_props (s : DState) (n c : String)
    (hids : WFIds s) (hb : WFBindings s) (hkeys : WFKeys s) (hfresh : WFFresh s) :
    ∃ wid w2, (openImageViewer s n c).activeWindow = some wid
      ∧ findWin (openImageViewer s n c) wid = some w2
      ∧ (w2.app = .doodle ∨ w2.app = .studio) := by
  unfold openImageViewer
  cases hf : s.windows.find? (fun w =>
      match w.fileInfo with
      | some (t, n2) => (t == AppKind.doodle || t == AppKind.studio) && n2 == n
      | none => false) with
  | some w =>
    have hw : w ∈ s.windows := List.mem_of_find?_eq_some hf
    have hp := List.find?_some hf
    have happ : w.app = .doodle ∨ w.app = .studio := by
      cases hfi : w.fileInfo with
      | none => rw [hfi] at hp; cases hp
      | some pr =>
        rw [hfi] at hp
        have ht : pr.1 = AppKind.doodle ∨ pr.1 = AppKind.studio := by
          have hp2 := hp
          simp only [Bool.and_eq_true, Bool.or_eq_true, beq_iff_eq] at hp2
          exact hp2.1
        have := hb w hw pr.1 pr.2 (by rw [hfi])
        cases ht with
        | inl h2 => exact Or.inl (by rw [this, h2])
        | inr h2 => exact Or.inr (by rw [this, h2])
    dsimp only
    rcases (focus_props s w hids hw).2 with ⟨w2, hw2, h2app, _, _, _⟩
    exact ⟨w.id, w2, (focus_props s w hids hw).1, hw2, by rw [h2app]; exact happ⟩
  | none =>
    dsimp only
    split
    case _ =>
      unfold openDoodlePad
      dsimp only
      cases hf2 : s.windows.find? (fun w => w.fileInfo == some (AppKind.doodle, n)) with
      | some w =>
        exfalso
        have hp2 := List.find?_some hf2
        have hmem2 := List.mem_of_find?_eq_some hf2
        rw [List.find?_eq_none] at hf
        have := hf w hmem2
        have hfi : w.fileInfo = some (AppKind.doodle, n) := by simpa using hp2
        rw [hfi] at this
        simp at this
      | none =>
        dsimp only
        rcases openDoodlePadCreate_props s (some (n, c)) hfresh with ⟨hact, w2, hw2, happ⟩
        exact ⟨s.nextId, w2, hact, hw2, Or.inl happ⟩
    case _ =>
      rcases openImageStudioWithContent_props s n c hids hkeys hfresh with
        ⟨wid, w2, hact, hw2, happ⟩
      exact ⟨wid, w2, hact, hw2, Or.inr happ⟩

end Workstation

namespace Workstation

/-- C9 (confirmed): `open_file` resolves the name against documents first and
images second.  If the name is a document (whether or not an image shares it),
a document-editor window ends up focused, no doodle/studio window is created,
and no message is emitted; if it is only an image, a doodle or studio viewer
ends up focused with no message; if it is neither, the result is exactly one
"File not found" chat message on an otherwise unchanged state. -/
theorem c9_open_file_precedence :
    (∀ s n d, n ≠ "" → WFIds s → WFBindings s → WFFresh s →
      fmLookup s.files.documents n = some d →
      (∃ wid w2,
          ((execAction s (Action.openFile (some n))).1).activeWindow = some wid
          ∧ findWin (execAction s (Action.openFile (some n))).1 wid = some w2
          ∧ w2.app = .docs)
      ∧ (((execAction s (Action.openFile (some n))).1).windows.filter
            (fun w => w.app == AppKind.doodle || w.app == AppKind.studio)).length
        = (s.windows.filter
            (fun w => w.app == AppKind.doodle || w.app == AppKind.studio)).length
      ∧ ((execAction s (Action.openFile (some n))).1).chat = s.chat)
    ∧ (∀ s n i, n ≠ "" → WFIds s → WFBindings s → WFKeys s → WFFresh s →
        fmLookup s.files.documents n = none → fmLookup s.files.images n = some i →
        (∃ wid w2,
            ((execAction s (Action.openFile (some n))).1).activeWindow = some wid
            ∧ findWin (execAction s (Action.openFile (some n))).1 wid = some w2
            ∧ (w2.app = .doodle ∨ w2.app = .studio))
        ∧ ((execAction s (Action.openFile (some n))).1).chat = s.chat)
    ∧ (∀ s n, n ≠ "" →
        fmLookup s.files.documents n = none → fmLookup s.files.images n = none →
        execAction s (Action.openFile (some n))
          = (addMessage s ("File not found: \"" ++ n ++ "\""), none)) := by
  refine ⟨?_, ?_, ?_⟩
  · intro s n d hn hids hb hfresh hd
    have hstep : (execAction s (Action.openFile (some n))).1
        = (openDocumentWriter s (some (n, d.content))).1 := by
      simp only [execAction]
      unfold openFileStep
      dsimp only
      rw [if_pos (by simpa using hn)]
      unfold getFiles
      rw [hd]
    rw [hstep]
    exact ⟨(openDocumentWriter_props s n d.content hids hb hfresh).1,
      (openDocumentWriter_props s n d.content hids hb hfresh).2
        (fun a => a == AppKind.doodle || a == AppKind.studio) (by decide),
      chat_openDocumentWriter s _⟩
  · intro s n i hn hids hb hkeys hfresh hd hi
    have hstep : (execAction s (Action.openFile (some n))).1
        = openImageViewer s n i.content := by
      simp only [execAction]
      unfold openFileStep
      dsimp only
      rw [if_pos (by simpa using hn)]
      unfold getFiles
      rw [hd, hi]
    rw [hstep]
    exact ⟨openImageViewer_props s n i.content hids hb hkeys hfresh,
      chat_openImageViewer s n i.content⟩
  · intro s n hn hd hi
    simp only [execAction]
    rw [openFileStep_missing s n (by simpa using hn) hd hi]

theorem c9_witness :
    (((execAction stBothNamespaces (Action.openFile (some "x"))).1).chat
      = stBothNamespaces.chat)
    ∧ (((execAction stDoodleOpenImage (Action.openFile (some "mydoodle"))).1).chat
      = stDoodleOpenImage.chat)
    ∧ execAction baseState (Action.openFile (some "zzz"))
      = (addMessage baseState "File not found: \"zzz\"", none) :=
  ⟨(c9_open_file_precedence.1 stBothNamespaces "x" ⟨"A", 0⟩ (by decide)
      (by unfold WFIds; decide)
      (by intro w hw; cases hw)
      (by intro w hw; cases hw)
      (by decide)).2.2,
   (c9_open_file_precedence.2.1 stDoodleOpenImage "mydoodle" ⟨"D", 0⟩ (by decide)
      (by unfold WFIds; decide)
      (by
        intro w hw t nn hfi
        simp [stDoodleOpenImage, stDoodleActive, mkWin] at hw
        rw [hw] at hfi
        exact Option.noConfusion hfi)
      (by
        intro p hp
        simp [stDoodleOpenImage, stDoodleActive] at hp
        rw [hp]
        exact ⟨{ mkWin 1 .doodle with content := "B" }, by decide, by decide⟩)
      (by unfold WFFresh; decide)
      (by decide) (by decide)).2,
   c9_open_file_precedence.2.2 baseState "zzz" (by decide) (by decide) (by decide)⟩

end Workstation

namespace Workstation

theorem fmLookup_cons (k2 : String) (v : FileData) (rest : FileMap) (k : String) :
    fmLookup ((k2, v) :: rest) k = if k2 = k then some v else fmLookup rest k := rfl

theorem fmLookup_append_right (m l2 : FileMap) (k : String)
    (hm : fmLookup m k = none) : fmLookup (m ++ l2) k = fmLookup l2 k := by
  induction m with
  | nil => rfl
  | cons p rest ih =>
    rcases p with ⟨k2, v⟩
    rw [fmLookup_cons] at hm
    by_cases h : k2 = k
    · rw [if_pos h] at hm
      cases hm
    · rw [if_neg h] at hm
      rw [List.cons_append, fmLookup_cons, if_neg h]
      exact ih hm

theorem fmLookup_map_replace (m : FileMap) (k : String) (v : FileData)
    (hm : fmContains m k = true) :
    fmLookup (m.map (fun p => if p.1 = k then (k, v) else p)) k = some v := by
  induction m with
  | nil => unfold fmContains fmLookup at hm; cases hm
  | cons p rest ih =>
    rcases p with ⟨k2, v2⟩
    rw [List.map_cons]
    by_cases h : k2 = k
    · rw [if_pos h, fmLookup_cons, if_pos rfl]
    · rw [if_neg h, fmLookup_cons, if_neg h]
      apply ih
      unfold fmContains at hm ⊢
      rw [fmLookup_cons, if_neg h] at hm
      exact hm

theorem fmLookup_fmSet_self (m : FileMap) (k : String) (v : FileData) :
    fmLookup (fmSet m k v) k = some v := by
  unfold fmSet
  by_cases h : fmContains m k
  · rw [if_pos h]
    exact fmLookup_map_replace m k v h
  · rw [if_neg h]
    have hm : fmLookup m k = none := by
      unfold fmContains at h
      cases hl : fmLookup m k with
      | none => rfl
      | some x => rw [hl] at h; simp at h
    rw [fmLookup_append_right m _ k hm, fmLookup_cons, if_pos rfl]

theorem saveFile_store_documents (s : DState) (n c : String) :
    (saveFile s "documents" n c).files.documents = fmSet s.files.documents n ⟨c, s.now⟩
    ∧ (saveFile s "documents" n c).files.images = s.files.images := by
  unfold saveFile
  rw [if_pos (by decide)]
  exact ⟨rfl, rfl⟩

theorem saveFile_store_images (s : DState) (n c : String) :
    (saveFile s "images" n c).files.images = fmSet s.files.images n ⟨c, s.now⟩
    ∧ (saveFile s "images" n c).files.documents = s.files.documents := by
  unfold saveFile
  rw [if_neg (by decide)]
  exact ⟨rfl, rfl⟩

theorem findWin_saveFile (s : DState) (t n c : String) (j : Nat) :
    findWin (saveFile s t n c) j = findWin s j := by
  unfold saveFile
  split <;> rfl

theorem active_saveFile (s : DState) (t n c : String) :
    (saveFile s t n c).activeWindow = s.activeWindow := by
  unfold saveFile
  split <;> rfl

theorem find?_after_update (l : List Window) (wid : Nat) (w : Window)
    (hw : l.find? (fun v => v.id == wid) = some w)
    (pred : Window → Bool) (f : Window → Window)
    (hpf : ∀ v, pred (f v) = true)
    (hpo : ∀ v ∈ l, pred v = true → v.id = wid) :
    (l.map (fun v => if v.id == wid then f v else v)).find? pred = some (f w) := by
  induction l with
  | nil => cases hw
  | cons x xs ih =>
    rw [List.map_cons]
    by_cases hx : x.id = wid
    · have hxw : x = w := by
        rw [List.find?_cons_of_pos _ (by simpa using hx)] at hw
        simpa using hw
      rw [if_pos (by simpa using hx)]
      rw [List.find?_cons_of_pos _ (hpf x)]
      rw [hxw]
    · have hpx : pred x = false := by
        cases hp : pred x with
        | false => rfl
        | true => exact absurd (hpo x (List.mem_cons_self x xs) hp) hx
      rw [if_neg (by simpa using hx)]
      rw [List.find?_cons_of_neg _ (by simp [hpx])]
      apply ih
      · rw [List.find?_cons_of_neg _ (by simpa using hx)] at hw
        exact hw
      · intro v hv hp
        exact hpo v (List.mem_cons_of_mem x hv) hp

end Workstation

namespace Workstation

theorem windows_saveFile (s : DState) (t n c : String) :
    (saveFile s t n c).windows = s.windows := by
  unfold saveFile
  split <;> rfl

theorem now_saveFile (s : DState) (t n c : String) :
    (saveFile s t n c).now = s.now := by
  unfold saveFile
  split <;> rfl

theorem saveActiveFileStep_docs (s : DState) (wid : Nat) (w : Window) (n : String)
    (ha : s.activeWindow = some wid) (hn : (n != "") = true)
    (hw : findWin s wid = some w) (happ : w.app = .docs) :
    saveActiveFileStep s (some n)
      = updateWin (saveFile s "documents" n w.content) wid
          (fun w2 => { w2 with fileInfo := some (.docs, n), title := "📝 " ++ n }) := by
  unfold saveActiveFileStep
  rw [ha]
  dsimp only
  rw [if_pos hn, hw]
  dsimp only
  rw [happ]

theorem saveActiveFileStep_doodle (s : DState) (wid : Nat) (w : Window) (n : String)
    (ha : s.activeWindow = some wid) (hn : (n != "") = true)
    (hw : findWin s wid = some w) (happ : w.app = .doodle) :
    saveActiveFileStep s (some n)
      = updateWin (saveFile s "images" n w.content) wid
          (fun w2 => { w2 with fileInfo := some (.doodle, n), title := "🎨 " ++ n }) := by
  unfold saveActiveFileStep
  rw [ha]
  dsimp only
  rw [if_pos hn, hw]
  dsimp only
  rw [happ]

theorem saveActiveFileStep_studio (s : DState) (wid : Nat) (w : Window) (n : String)
    (src : String)
    (ha : s.activeWindow = some wid) (hn : (n != "") = true)
    (hw : findWin s wid = some w) (happ : w.app = .studio)
    (himg : w.imgSrc = some src) :
    saveActiveFileStep s (some n)
      = updateWin (saveFile s "images" n src) wid
          (fun w2 => { w2 with fileInfo := some (.studio, n), title := "🖼️ " ++ n }) := by
  unfold saveActiveFileStep
  rw [ha]
  dsimp only
  rw [if_pos hn, hw]
  dsimp only
  rw [happ]
  dsimp only
  rw [himg]

theorem openFileStep_docs (s : DState) (n : String) (hn : (n != "") = true)
    (d : FileData) (hd : fmLookup s.files.documents n = some d) :
    openFileStep s (some n) = (openDocumentWriter s (some (n, d.content))).1 := by
  unfold openFileStep
  dsimp only
  rw [if_pos hn]
  unfold getFiles
  rw [hd]

theorem openFileStep_image (s : DState) (n : String) (hn : (n != "") = true)
    (hd : fmLookup s.files.documents n = none)
    (i : FileData) (hi : fmLookup s.files.images n = some i) :
    openFileStep s (some n) = openImageViewer s n i.content := by
  unfold openFileStep
  dsimp only
  rw [if_pos hn]
  unfold getFiles
  rw [hd, hi]

theorem openDocumentWriter_focus (s : DState) (n c : String) (w : Window)
    (hf : findBoundDocsWindow s n = some w) :
    (openDocumentWriter s (some (n, c))).1 = setActiveWindow s w.id := by
  unfold openDocumentWriter
  dsimp only
  rw [hf]

theorem openImageViewer_focus (s : DState) (n c : String) (w : Window)
    (hf : s.windows.find? (fun v =>
        match v.fileInfo with
        | some (t, n2) => (t == AppKind.doodle || t == AppKind.studio) && n2 == n
        | none => false) = some w) :
    openImageViewer s n c = setActiveWindow s w.id := by
  unfold openImageViewer
  rw [hf]

end Workstation

namespace Workstation

theorem c5_docs_roundtrip (s : DState) (n : String) (wid : Nat) (w : Window)
    (hn : n ≠ "") (ha : s.activeWindow = some wid) (hw : findWin s wid = some w)
    (happ : w.app = .docs)
    (hnb : ∀ w2 ∈ s.windows, w2.fileInfo = some (AppKind.docs, n) → w2.id = wid) :
    fmLookup ((executeActionSequence s
        [Action.saveActiveFile (some n), Action.openFile (some n)]).1).files.documents n
      = some ⟨w.content, s.now⟩
    ∧ ((executeActionSequence s
        [Action.saveActiveFile (some n), Action.openFile (some n)]).1).activeWindow
      = some wid
    ∧ ∃ w2, findWin (executeActionSequence s
        [Action.saveActiveFile (some n), Action.openFile (some n)]).1 wid = some w2
        ∧ w2.content = w.content := by
  have hnb2 : (n != "") = true := by simpa using hn
  have hwid : w.id = wid := findWin_id s wid w hw
  have hseq : (executeActionSequence s
      [Action.saveActiveFile (some n), Action.openFile (some n)]).1
      = openFileStep (saveActiveFileStep s (some n)) (some n) := rfl
  rw [hseq, saveActiveFileStep_docs s wid w n ha hnb2 hw happ]
  have hdlook : fmLookup (updateWin (saveFile s "documents" n w.content) wid
      (fun w2 => { w2 with fileInfo := some (AppKind.docs, n), title := "📝 " ++ n })).files.documents n = some ⟨w.content, s.now⟩ := by
    rw [(cf_updateWin _ _ _).2, (saveFile_store_documents s n w.content).1]
    exact fmLookup_fmSet_self _ _ _
  rw [openFileStep_docs _ n hnb2 ⟨w.content, s.now⟩ hdlook]
  have hfb : findBoundDocsWindow (updateWin (saveFile s "documents" n w.content) wid
      (fun w2 => { w2 with fileInfo := some (AppKind.docs, n), title := "📝 " ++ n })) n
      = some { w with fileInfo := some (AppKind.docs, n), title := "📝 " ++ n } := by
    unfold findBoundDocsWindow updateWin
    dsimp only
    rw [windows_saveFile]
    exact find?_after_update s.windows wid w hw _
      (fun w2 => { w2 with fileInfo := some (AppKind.docs, n), title := "📝 " ++ n })
      (fun v => by simp)
      (fun v hv hp => hnb v hv (by simpa using hp))
  rw [openDocumentWriter_focus _ n w.content _ hfb]
  rw [show ({ w with fileInfo := some (AppKind.docs, n), title := "📝 " ++ n } : Window).id = wid from hwid]
  have hact1 : (updateWin (saveFile s "documents" n w.content) wid
      (fun w2 => { w2 with fileInfo := some (AppKind.docs, n), title := "📝 " ++ n })).activeWindow = some wid := by
    rw [active_updateWin, active_saveFile]
    exact ha
  refine ⟨?_, ?_, ?_⟩
  · rw [(cf_setActiveWindow _ _).2]
    exact hdlook
  · exact active_setActiveWindow _ _
  · rw [findWin_setActiveWindow, if_pos hact1]
    rw [findWin_updateWin _ _ _
      (fun w2 => { w2 with fileInfo := some (AppKind.docs, n), title := "📝 " ++ n })
      (fun v => rfl), findWin_saveFile, hw, Option.map_some']
    refine ⟨_, rfl, ?_⟩
    simp only [hwid, beq_self_eq_true, if_true]

end Workstation

namespace Workstation

theorem c5_doodle_roundtrip (s : DState) (n : String) (wid : Nat) (w : Window)
    (hn : n ≠ "") (ha : s.activeWindow = some wid) (hw : findWin s wid = some w)
    (happ : w.app = .doodle)
    (hshadow : fmLookup s.files.documents n = none)
    (hnb : ∀ w2 ∈ s.windows, ∀ t, w2.fileInfo = some (t, n) → w2.id = wid) :
    fmLookup ((executeActionSequence s
        [Action.saveActiveFile (some n), Action.openFile (some n)]).1).files.images n
      = some ⟨w.content, s.now⟩
    ∧ ((executeActionSequence s
        [Action.saveActiveFile (some n), Action.openFile (some n)]).1).activeWindow
      = some wid
    ∧ ∃ w2, findWin (executeActionSequence s
        [Action.saveActiveFile (some n), Action.openFile (some n)]).1 wid = some w2
        ∧ w2.content = w.content := by
  have hnb2 : (n != "") = true := by simpa using hn
  have hwid : w.id = wid := findWin_id s wid w hw
  have hseq : (executeActionSequence s
      [Action.saveActiveFile (some n), Action.openFile (some n)]).1
      = openFileStep (saveActiveFileStep s (some n)) (some n) := rfl
  rw [hseq, saveActiveFileStep_doodle s wid w n ha hnb2 hw happ]
  have hdnone : fmLookup (updateWin (saveFile s "images" n w.content) wid
      (fun w2 => { w2 with fileInfo := some (AppKind.doodle, n), title := "🎨 " ++ n })).files.documents n = none := by
    rw [(cf_updateWin _ _ _).2, (saveFile_store_images s n w.content).2]
    exact hshadow
  have hils : fmLookup (updateWin (saveFile s "images" n w.content) wid
      (fun w2 => { w2 with fileInfo := some (AppKind.doodle, n), title := "🎨 " ++ n })).files.images n = some ⟨w.content, s.now⟩ := by
    rw [(cf_updateWin _ _ _).2, (saveFile_store_images s n w.content).1]
    exact fmLookup_fmSet_self _ _ _
  rw [openFileStep_image _ n hnb2 hdnone ⟨w.content, s.now⟩ hils]
  have hfv : (updateWin (saveFile s "images" n w.content) wid
      (fun w2 => { w2 with fileInfo := some (AppKind.doodle, n), title := "🎨 " ++ n })).windows.find?
        (fun v => match v.fileInfo with
          | some (t, n2) => (t == AppKind.doodle || t == AppKind.studio) && n2 == n
          | none => false)
      = some { w with fileInfo := some (AppKind.doodle, n), title := "🎨 " ++ n } := by
    rw [show (updateWin (saveFile s "images" n w.content) wid
        (fun w2 => { w2 with fileInfo := some (AppKind.doodle, n), title := "🎨 " ++ n })).windows
      = (saveFile s "images" n w.content).windows.map
          (fun v => if v.id == wid then
            { v with fileInfo := some (AppKind.doodle, n), title := "🎨 " ++ n } else v)
      from rfl]
    rw [windows_saveFile]
    apply find?_after_update s.windows wid w hw _ _ (fun v => by simp) ?hpo
    case hpo =>
      intro v hv hp
      cases hfi : v.fileInfo with
      | none => rw [hfi] at hp; cases hp
      | some pr =>
        rw [hfi] at hp
        simp only [Bool.and_eq_true, Bool.or_eq_true, beq_iff_eq] at hp
        refine hnb v hv pr.1 ?_
        rw [hfi, show pr = (pr.1, pr.2) from rfl, hp.2]
  rw [openImageViewer_focus _ n w.content _ hfv]
  rw [show ({ w with fileInfo := some (AppKind.doodle, n), title := "🎨 " ++ n } : Window).id = wid from hwid]
  have hact1 : (updateWin (saveFile s "images" n w.content) wid
      (fun w2 => { w2 with fileInfo := some (AppKind.doodle, n), title := "🎨 " ++ n })).activeWindow = some wid := by
    rw [active_updateWin, active_saveFile]
    exact ha
  refine ⟨?_, ?_, ?_⟩
  · rw [(cf_setActiveWindow _ _).2]
    exact hils
  · exact active_setActiveWindow _ _
  · rw [findWin_setActiveWindow, if_pos hact1]
    rw [findWin_updateWin _ _ _
      (fun w2 => { w2 with fileInfo := some (AppKind.doodle, n), title := "🎨 " ++ n })
      (fun v => rfl), findWin_saveFile, hw, Option.map_some']
    refine ⟨_, rfl, ?_⟩
    simp only [hwid, beq_self_eq_true, if_true]

theorem c5_studio_roundtrip (s : DState) (n : String) (wid : Nat) (w : Window)
    (src : String)
    (hn : n ≠ "") (ha : s.activeWindow = some wid) (hw : findWin s wid = some w)
    (happ : w.app = .studio) (himg : w.imgSrc = some src)
    (hshadow : fmLookup s.files.documents n = none)
    (hnb : ∀ w2 ∈ s.windows, ∀ t, w2.fileInfo = some (t, n) → w2.id = wid) :
    fmLookup ((executeActionSequence s
        [Action.saveActiveFile (some n), Action.openFile (some n)]).1).files.images n
      = some ⟨src, s.now⟩
    ∧ ((executeActionSequence s
        [Action.saveActiveFile (some n), Action.openFile (some n)]).1).activeWindow
      = some wid
    ∧ ∃ w2, findWin (executeActionSequence s
        [Action.saveActiveFile (some n), Action.openFile (some n)]).1 wid = some w2
        ∧ w2.imgSrc = some src := by
  have hnb2 : (n != "") = true := by simpa using hn
  have hwid : w.id = wid := findWin_id s wid w hw
  have hseq : (executeActionSequence s
      [Action.saveActiveFile (some n), Action.openFile (some n)]).1
      = openFileStep (saveActiveFileStep s (some n)) (some n) := rfl
  rw [hseq, saveActiveFileStep_studio s wid w n src ha hnb2 hw happ himg]
  have hdnone : fmLookup (updateWin (saveFile s "images" n src) wid
      (fun w2 => { w2 with fileInfo := some (AppKind.studio, n), title := "🖼️ " ++ n })).files.documents n = none := by
    rw [(cf_updateWin _ _ _).2, (saveFile_store_images s n src).2]
    exact hshadow
  have hils : fmLookup (updateWin (saveFile s "images" n src) wid
      (fun w2 => { w2 with fileInfo := some (AppKind.studio, n), title := "🖼️ " ++ n })).files.images n = some ⟨src, s.now⟩ := by
    rw [(cf_updateWin _ _ _).2, (saveFile_store_images s n src).1]
    exact fmLookup_fmSet_self _ _ _
  rw [openFileStep_image _ n hnb2 hdnone ⟨src, s.now⟩ hils]
  have hfv : (updateWin (saveFile s "images" n src) wid
      (fun w2 => { w2 with fileInfo := some (AppKind.studio, n), title := "🖼️ " ++ n })).windows.find?
        (fun v => match v.fileInfo with
          | some (t, n2) => (t == AppKind.doodle || t == AppKind.studio) && n2 == n
          | none => false)
      = some { w with fileInfo := some (AppKind.studio, n), title := "🖼️ " ++ n } := by
    rw [show (updateWin (saveFile s "images" n src) wid
        (fun w2 => { w2 with fileInfo := some (AppKind.studio, n), title := "🖼️ " ++ n })).windows
      = (saveFile s "images" n src).windows.map
          (fun v => if v.id == wid then
            { v with fileInfo := some (AppKind.studio, n), title := "🖼️ " ++ n } else v)
      from rfl]
    rw [windows_saveFile]
    apply find?_after_update s.windows wid w hw _ _ (fun v => by simp) ?hpo
    case hpo =>
      intro v hv hp
      cases hfi : v.fileInfo with
      | none => rw [hfi] at hp; cases hp
      | some pr =>
        rw [hfi] at hp
        simp only [Bool.and_eq_true, Bool.or_eq_true, beq_iff_eq] at hp
        refine hnb v hv pr.1 ?_
        rw [hfi, show pr = (pr.1, pr.2) from rfl, hp.2]
  rw [openImageViewer_focus _ n src _ hfv]
  rw [show ({ w with fileInfo := some (AppKind.studio, n), title := "🖼️ " ++ n } : Window).id = wid from hwid]
  have hact1 : (updateWin (saveFile s "images" n src) wid
      (fun w2 => { w2 with fileInfo := some (AppKind.studio, n), title := "🖼️ " ++ n })).activeWindow = some wid := by
    rw [active_updateWin, active_saveFile]
    exact ha
  refine ⟨?_, ?_, ?_⟩
  · rw [(cf_setActiveWindow _ _).2]
    exact hils
  · exact active_setActiveWindow _ _
  · rw [findWin_setActiveWindow, if_pos hact1]
    rw [findWin_updateWin _ _ _
      (fun w2 => { w2 with fileInfo := some (AppKind.studio, n), title := "🖼️ " ++ n })
      (fun v => rfl), findWin_saveFile, hw, Option.map_some']
    refine ⟨_, rfl, ?_⟩
    simp only [hwid, beq_self_eq_true, if_true]
    exact himg

end Workstation

namespace Workstation

/-- C5 (corrected): the file store itself round-trips exactly — saving writes
the unmodified content string, and looking the name up returns it
byte-identical — and `save_active_file` followed by `open_file` yields the
saved content for documents unconditionally and for images whenever the name
is not shadowed by a document: the focused window after the open holds exactly
the saved string.  The claim's universal version fails, because `open_file`
prefers the documents namespace: saving an image under a name that already
exists as a document and then opening that name opens the document, not the
saved image. -/
theorem c5_save_open_roundtrip :
    (∀ s n c,
      fmLookup ((saveFile s "documents" n c).files).documents n = some ⟨c, s.now⟩
      ∧ fmLookup ((saveFile s "images" n c).files).images n = some ⟨c, s.now⟩)
    ∧ (∀ s n wid w, n ≠ "" → s.activeWindow = some wid → findWin s wid = some w →
        w.app = .docs →
        (∀ w2 ∈ s.windows, w2.fileInfo = some (AppKind.docs, n) → w2.id = wid) →
        fmLookup ((executeActionSequence s
            [Action.saveActiveFile (some n), Action.openFile (some n)]).1).files.documents n
          = some ⟨w.content, s.now⟩
        ∧ ((executeActionSequence s
            [Action.saveActiveFile (some n), Action.openFile (some n)]).1).activeWindow
          = some wid
        ∧ ∃ w2, findWin (executeActionSequence s
            [Action.saveActiveFile (some n), Action.openFile (some n)]).1 wid = some w2
            ∧ w2.content = w.content)
    ∧ (∀ s n wid w, n ≠ "" → s.activeWindow = some wid → findWin s wid = some w →
        w.app = .doodle → fmLookup s.files.documents n = none →
        (∀ w2 ∈ s.windows, ∀ t, w2.fileInfo = some (t, n) → w2.id = wid) →
        fmLookup ((executeActionSequence s
            [Action.saveActiveFile (some n), Action.openFile (some n)]).1).files.images n
          = some ⟨w.content, s.now⟩
        ∧ ((executeActionSequence s
            [Action.saveActiveFile (some n), Action.openFile (some n)]).1).activeWindow
          = some wid
        ∧ ∃ w2, findWin (executeActionSequence s
            [Action.saveActiveFile (some n), Action.openFile (some n)]).1 wid = some w2
            ∧ w2.content = w.content)
    ∧ (∀ s n wid w src, n ≠ "" → s.activeWindow = some wid → findWin s wid = some w →
        w.app = .studio → w.imgSrc = some src → fmLookup s.files.documents n = none →
        (∀ w2 ∈ s.windows, ∀ t, w2.fileInfo = some (t, n) → w2.id = wid) →
        fmLookup ((executeActionSequence s
            [Action.saveActiveFile (some n), Action.openFile (some n)]).1).files.images n
          = some ⟨src, s.now⟩
        ∧ ((executeActionSequence s
            [Action.saveActiveFile (some n), Action.openFile (some n)]).1).activeWindow
          = some wid
        ∧ ∃ w2, findWin (executeActionSequence s
            [Action.saveActiveFile (some n), Action.openFile (some n)]).1 wid = some w2
            ∧ w2.imgSrc = some src) := by
  refine ⟨?_, ?_, ?_, ?_⟩
  · intro s n c
    constructor
    · rw [(saveFile_store_documents s n c).1]
      exact fmLookup_fmSet_self _ _ _
    · rw [(saveFile_store_images s n c).1]
      exact fmLookup_fmSet_self _ _ _
  · intro s n wid w hn ha hw happ hnb
    exact c5_docs_roundtrip s n wid w hn ha hw happ hnb
  · intro s n wid w hn ha hw happ hshadow hnb
    exact c5_doodle_roundtrip s n wid w hn ha hw happ hshadow hnb
  · intro s n wid w src hn ha hw happ himg hshadow hnb
    exact c5_studio_roundtrip s n wid w src hn ha hw happ himg hshadow hnb

theorem c5_witness :
    (fmLookup ((saveFile baseState "documents" "a" "C1C").files).documents "a"
      = some ⟨"C1C", 0⟩)
    ∧ (fmLookup ((executeActionSequence stDocHello
        [Action.saveActiveFile (some "f"), Action.openFile (some "f")]).1).files.documents "f"
      = some ⟨"hello", 0⟩)
    ∧ (fmLookup ((executeActionSequence stDoodleActive
        [Action.saveActiveFile (some "g"), Action.openFile (some "g")]).1).files.images "g"
      = some ⟨"B", 0⟩)
    ∧ (fmLookup ((executeActionSequence stStudioActive
        [Action.saveActiveFile (some "h"), Action.openFile (some "h")]).1).files.images "h"
      = some ⟨"IMGDATA", 0⟩) :=
  ⟨(c5_save_open_roundtrip.1 baseState "a" "C1C").1,
   (c5_save_open_roundtrip.2.1 stDocHello "f" 1 { mkWin 1 .docs with content := "hello" }
      (by decide) (by decide) (by decide) (by decide)
      (by
        intro w2 hw2 hfi
        simp [stDocHello, stDocActive, mkWin] at hw2
        rw [hw2] at hfi
        exact Option.noConfusion hfi)).1,
   (c5_save_open_roundtrip.2.2.1 stDoodleActive "g" 1 { mkWin 1 .doodle with content := "B" }
      (by decide) (by decide) (by decide) (by decide) (by decide)
      (by
        intro w2 hw2 t hfi
        simp [stDoodleActive, mkWin] at hw2
        rw [hw2] at hfi
        exact Option.noConfusion hfi)).1,
   (c5_save_open_roundtrip.2.2.2 stStudioActive "h" 1
      { mkWin 1 .studio with imgSrc := some "IMGDATA" } "IMGDATA"
      (by decide) (by decide) (by decide) (by decide) (by decide) (by decide)
      (by
        intro w2 hw2 t hfi
        simp [stStudioActive, mkWin] at hw2
        rw [hw2] at hfi
        exact Option.noConfusion hfi)).1⟩

theorem c5_counterexample :
    ((executeActionSequence stShadow
        [Action.saveActiveFile (some "x"), Action.openFile (some "x")]).1).activeWindow
      = some 2
    ∧ (findWin (executeActionSequence stShadow
        [Action.saveActiveFile (some "x"), Action.openFile (some "x")]).1 2).map
          (fun w => w.content) = some "A"
    ∧ fmLookup ((executeActionSequence stShadow
        [Action.saveActiveFile (some "x"), Action.openFile (some "x")]).1).files.images "x"
      = some ⟨"B", 0⟩
    ∧ "A" ≠ "B" := by
  decide

end Workstation
